import Mathlib

/-!
Verification of the MindScale match engine (a chat-group elimination
number-guessing game).  The Python engine lives in `plugins/game/core.py`
(players, rounds, the scoring pipeline of `process_round_results`,
`dm_pick_handler`, `end_game`) with the lobby controller
(`join`, `leave`, `end_join_phase`) in `game.py`.  This file gives a
shallow embedding of that code as executable Lean definitions —
translated statement by statement from the source — and proves the
specification claims about it.

Modelling conventions:
* Python `dict` (insertion ordered) becomes an association list.
* Python numbers: scores are `Int`; the round target, computed with
  float arithmetic in Python, is modelled with exact rationals `ℚ`
  (the spec describes the target as exact arithmetic `0.8 × mean`).
* A player's `current_number` field holds `None`, an `int`, or the
  string `"Skipped"`; it becomes the inductive `Pick` below.
* Outbound chat messages, videos, sqlite access and `asyncio` timer
  handles carry no game-state logic and are omitted; the data mutations
  surrounding them are kept exactly.
-/

namespace MindScale

/-- `Player.current_number` in the source: `None` (no pick yet this
round), an integer pick, or the literal string `"Skipped"` written by
`handle_miss` on a first miss. -/
inductive Pick where
  | unset : Pick
  | picked (n : Int) : Pick
  | skipped : Pick
deriving DecidableEq, Repr

/-- Is the pick a numeric value?  Mirrors the source's
`isinstance(p.current_number, (int, float))` tests. -/
def Pick.isNum : Pick → Bool
  | .picked _ => true
  | _ => false

/-- `p.current_number is not None` in the source. -/
def Pick.isSet : Pick → Bool
  | .unset => false
  | _ => true

/-- The `Player` record of `plugins/game/core.py` (class `Player`,
constructor fields in source order; `name`/`username` feed only chat
messages and are dropped). -/
structure Player where
  user_id : Int
  current_number : Pick
  score : Int
  eliminated : Bool
  miss_offenses : Nat
  total_penalties : Int
  rounds_played : Nat
  timeout_count : Nat
  timeout_penalty_applied : Bool
deriving DecidableEq, Repr

/-- `Player.__init__`: a fresh player with score 0 and all counters
cleared. -/
def Player.init (uid : Int) : Player :=
  { user_id := uid
    current_number := .unset
    score := 0
    eliminated := false
    miss_offenses := 0
    total_penalties := 0
    rounds_played := 0
    timeout_count := 0
    timeout_penalty_applied := false }

/-- The `MindScaleGame` record (class `MindScaleGame` in
`plugins/game/core.py`).  `players` is the insertion-ordered
`user_id -> Player` dict; timer-handle dicts and the unused
`score_history` list are omitted. -/
structure Game where
  group_id : Int
  players : List Player
  join_phase_active : Bool
  round_number : Nat
  current_round_active : Bool
  round_results_sent : Bool
  duplicate_rule_active : Bool
  next_round_duplicate_active : Bool
  ended : Bool
deriving DecidableEq, Repr

/-- `MindScaleGame.__init__`. -/
def Game.init (gid : Int) : Game :=
  { group_id := gid
    players := []
    join_phase_active := true
    round_number := 0
    current_round_active := false
    round_results_sent := false
    duplicate_rule_active := false
    next_round_duplicate_active := false
    ended := false }

/-- The `active_players` property: players not yet eliminated. -/
def Game.activePlayers (g : Game) : List Player :=
  g.players.filter (fun p => !p.eliminated)

/-- `user_id in game.players` / `game.players.get(user_id)`. -/
def Game.findPlayer (g : Game) (uid : Int) : Option Player :=
  g.players.find? (fun p => p.user_id == uid)

/-- In-place update of one player entry of the dict (Python mutates the
`Player` object held in the dict). -/
def Game.updatePlayer (g : Game) (uid : Int) (f : Player → Player) : Game :=
  { g with players := g.players.map (fun p => if p.user_id == uid then f p else p) }

/-- `reset_round_picks`: set every player's `current_number` to `None`. -/
def Game.resetRoundPicks (g : Game) : Game :=
  { g with players := g.players.map (fun p => { p with current_number := .unset }) }

/-- The module-level registries of `plugins/game/core.py`:
`active_games : group_id -> game` and
`user_active_game : user_id -> group_id`. -/
structure RegState where
  active_games : List (Int × Game)
  user_active_game : List (Int × Int)
deriving DecidableEq, Repr

/-- `group_id in active_games` / `active_games[group_id]`. -/
def RegState.lookupGame (r : RegState) (gid : Int) : Option Game :=
  (r.active_games.find? (fun q => q.1 == gid)).map Prod.snd

/-- Store back the (mutated) game object registered under `gid`. -/
def RegState.updateGame (r : RegState) (gid : Int) (g : Game) : RegState :=
  { r with active_games := r.active_games.map (fun q => if q.1 == gid then (q.1, g) else q) }

/-- `active_games.pop(group_id, None)` / `del active_games[group_id]`. -/
def RegState.removeGame (r : RegState) (gid : Int) : RegState :=
  { r with active_games := r.active_games.filter (fun q => !(q.1 == gid)) }

/-- `user_active_game[user_id]` lookup. -/
def RegState.lookupUser (r : RegState) (uid : Int) : Option Int :=
  (r.user_active_game.find? (fun q => q.1 == uid)).map Prod.snd

/-- `user_active_game[user_id] = group_id` (dict insert-or-assign). -/
def RegState.bindUser (r : RegState) (uid gid : Int) : RegState :=
  if (r.user_active_game.find? (fun q => q.1 == uid)).isSome then
    { r with user_active_game :=
        r.user_active_game.map (fun q => if q.1 == uid then (q.1, gid) else q) }
  else
    { r with user_active_game := r.user_active_game ++ [(uid, gid)] }

/-- `user_active_game.pop(user_id, None)`. -/
def RegState.unbindUser (r : RegState) (uid : Int) : RegState :=
  { r with user_active_game := r.user_active_game.filter (fun q => !(q.1 == uid)) }

/-! ## The scoring pipeline of `process_round_results` (core.py 199-364)

Each numbered rule of the pipeline is translated as its own function,
in the order the source executes them; `processRoundResults` below is
their composition. -/

/-- core.py 207: `picks = [(p.user_id, p.current_number) for p in
game.active_players if isinstance(p.current_number, (int, float))]`. -/
def Game.picksOf (g : Game) : List (Int × Int) :=
  g.activePlayers.filterMap (fun p =>
    match p.current_number with
    | .picked n => some (p.user_id, n)
    | _ => none)

/-- core.py 216-218: `average = sum(nums) / len(nums)`;
`target = average * 0.8` (exact-rational model of the float
arithmetic). -/
def roundTarget (picks : List (Int × Int)) : ℚ :=
  let nums := picks.map Prod.snd
  ((nums.map (fun n : Int => (n : ℚ))).sum / nums.length) * (0.8 : ℚ)

/-- `counts[v]`: how many of the round's numeric picks equal `v`
(core.py 235-237). -/
def pickCount (picks : List (Int × Int)) (v : Int) : Nat :=
  (picks.filter (fun q => q.2 == v)).length

/-- core.py 238: `any(count >= 4 for count in counts.values())`. -/
def someValuePicked4 (picks : List (Int × Int)) : Bool :=
  picks.any (fun q => 4 ≤ pickCount picks q.2)

/-- core.py 238-239: if any value was chosen by ≥4 players this round,
flag the duplicate rule for the next round — run before (and
independently of) the duplicate-penalty evaluation. -/
def scheduleDuplicate (g : Game) (picks : List (Int × Int)) : Game :=
  if someValuePicked4 picks then { g with next_round_duplicate_active := true } else g

/-- `p.score -= k; p.total_penalties += k`, the mutation pair used by
every penalty in the pipeline. -/
def Player.penalize (p : Player) (k : Int) : Player :=
  { p with score := p.score - k, total_penalties := p.total_penalties + k }

/-- `p.current_number in duplicate_nums` where
`duplicate_nums = {num for num, count in counts.items() if count >= 4}`
(core.py 245, 250): true exactly for a numeric pick whose value was
chosen at least 4 times. -/
def pickInDupNums (picks : List (Int × Int)) (c : Pick) : Bool :=
  match c with
  | .picked n => 4 ≤ pickCount picks n
  | _ => false

/-- core.py 241-257, the duplicate-penalty rule.  Returns the mutated
game, the ids of the penalized players (`duplicate_players`) and the
`duplicates_exist` flag.  The whole block is guarded by
`num_alive > 2 and game.duplicate_rule_active`. -/
def dupStep (g : Game) (picks : List (Int × Int)) : Game × List Int × Bool :=
  if 2 < g.activePlayers.length ∧ g.duplicate_rule_active = true then
    let dupsExist := someValuePicked4 picks
    let dupIds := (g.activePlayers.filter
        (fun p => pickInDupNums picks p.current_number)).map Player.user_id
    let g' := { g with players := g.players.map (fun p =>
        if !p.eliminated && pickInDupNums picks p.current_number
        then p.penalize 1 else p) }
    (g', dupIds, dupsExist)
  else (g, [], false)

/-- core.py 259-264, closest-number logic, as literally written over
the rational target: ids of the active players with a numeric pick at
minimum `abs(pick - target)`. -/
def closestWinnersQ (g : Game) (target : ℚ) : List Int :=
  let diffs := g.activePlayers.filterMap (fun p =>
    match p.current_number with
    | .picked n => some (p, |(n : ℚ) - target|)
    | _ => none)
  match (diffs.map Prod.snd).min? with
  | none => []
  | some m =>
      (diffs.filter (fun d => decide (d.2 = m) && !d.1.eliminated)).map
        (fun d => d.1.user_id)

/-- core.py 259-264, closest-number logic, computable form used by the
pipeline.  The target is the exact fraction `S / D` with `D > 0`, so
`abs(pick - target) = |pick*D - S| / D` and all the distances share the
positive denominator `D`: comparing the integer numerators
`|pick*D - S|` is exactly comparing the distances.
`closestWinners_matches_rat` below proves this equal to the direct
rational translation `closestWinnersQ`. -/
def closestWinners (g : Game) (S D : Int) : List Int :=
  let diffs := g.activePlayers.filterMap (fun p =>
    match p.current_number with
    | .picked n => some (p, |n * D - S|)
    | _ => none)
  match (diffs.map Prod.snd).min? with
  | none => []
  | some m =>
      (diffs.filter (fun d => d.2 == m && !d.1.eliminated)).map
        (fun d => d.1.user_id)

/-- core.py 266-278, the 0-vs-100 special case: with exactly two
players alive whose picks include 0 and 100, the 100-picker becomes the
sole winner and the other player (unless duplicate-penalized) takes −1.
Returns (game, winner ids, `zero_vs_hundred_case`).  The inner `none`
branch is unreachable: the guard guarantees a 100-pick exists. -/
def zeroHundredStep (g : Game) (dupIds winners : List Int) :
    Game × List Int × Bool :=
  let aliveNow := g.activePlayers
  if aliveNow.length = 2 ∧ aliveNow.any (fun p => p.current_number == .picked 0) = true
      ∧ aliveNow.any (fun p => p.current_number == .picked 100) = true then
    match aliveNow.find? (fun p => p.current_number == .picked 100) with
    | none => (g, winners, false)
    | some p100 =>
      let g' := { g with players := g.players.map (fun p =>
          if !p.eliminated && !(p.user_id == p100.user_id)
              && !(dupIds.contains p.user_id)
          then p.penalize 1 else p) }
      (g', [p100.user_id], true)
  else (g, winners, false)

/-- Python's `round` applied to the target: round half to even,
modelled on exact rationals (core.py 284). -/
def pyRound (q : ℚ) : Int :=
  let f := ⌊q⌋
  if q - f < 1/2 then f
  else if (1 : ℚ)/2 < q - f then f + 1
  else if f % 2 = 0 then f else f + 1

/-- Python's `round` of the exact fraction `S / D` (`D > 0`),
computable form: the floor is `S.fdiv D` and the fractional part
`(S - f*D) / D` is compared with 1/2 by comparing `2*(S - f*D)` with
`D`.  `pyRoundFrac_matches_rat` below proves this equal to `pyRound`
on `S / D`. -/
def pyRoundFrac (S D : Int) : Int :=
  let f := S.fdiv D
  let r2 := 2 * (S - f * D)
  if r2 < D then f
  else if D < r2 then f + 1
  else if f % 2 = 0 then f else f + 1

/-- core.py 280-291, the "second elimination" exact-target special:
with ≥2 players eliminated overall and neither the 0-vs-100 case nor
the duplicate rule applied, active players whose pick equals
`round(target)` become the winner set and every other active,
non-duplicate player takes −2.  Returns (game, winner ids,
`special_penalty_applied`). -/
def specialStep (g : Game) (dupIds winners : List Int)
    (zeroCase dupsExist : Bool) (numElim : Nat) (roundedTarget : Int) :
    Game × List Int × Bool :=
  if 2 ≤ numElim ∧ zeroCase = false ∧ dupsExist = false then
    let exact := g.activePlayers.filter
        (fun p => p.current_number == .picked roundedTarget)
    if exact.isEmpty then (g, winners, false)
    else
      let exactIds := exact.map Player.user_id
      let g' := { g with players := g.players.map (fun p =>
          if !p.eliminated && !(exactIds.contains p.user_id)
              && !(dupIds.contains p.user_id)
          then p.penalize 2 else p) }
      (g', exactIds, true)
  else (g, winners, false)

/-- core.py 293-307, the generic non-winner penalty: skipped entirely
in the 0-vs-100 case; otherwise −1 for every active player that is not
duplicate-penalized, not a winner, has no `timeout_penalty_applied`
flag, and only when neither `duplicates_exist` nor
`special_penalty_applied` is set. -/
def genericStep (g : Game) (dupIds winners : List Int)
    (zeroCase dupsExist special : Bool) : Game :=
  if zeroCase then g
  else
    { g with players := g.players.map (fun p =>
        if !p.eliminated && !(dupIds.contains p.user_id)
            && !(winners.contains p.user_id) && !p.timeout_penalty_applied
            && !dupsExist && !special
        then p.penalize 1 else p) }

/-- core.py 309-316, the elimination check: one pass flipping
`eliminated` for every player at score ≤ −10, and if this produced the
match's first elimination (`num_eliminated == 0` before the pass),
flag the duplicate rule for the next round.  Returns
(game, `eliminated_now` ids). -/
def elimStep (g : Game) (numElimBefore : Nat) : Game × List Int :=
  let newly := (g.players.filter
      (fun p => !p.eliminated && decide (p.score ≤ -10))).map Player.user_id
  let g' := { g with players := g.players.map (fun p =>
      if !p.eliminated && decide (p.score ≤ -10)
      then { p with eliminated := true } else p) }
  if !newly.isEmpty && numElimBefore == 0 then
    ({ g' with next_round_duplicate_active := true }, newly)
  else (g', newly)

/-- What one round resolution reports back to the group: the target of
the round, the final `winner_players` and `eliminated_now`
(core.py 318-341). -/
structure RoundSummary where
  target : ℚ
  winners : List Int
  eliminatedNow : List Int
deriving DecidableEq, Repr

/-- `sorted(game.players.values(), key=lambda p: -p.score)`:
descending stable sort by score (core.py 474). -/
def playersSorted (g : Game) : List Player :=
  g.players.mergeSort (fun a b => decide (b.score ≤ a.score))

/-- core.py 489-490: the champion is the first non-eliminated player of
the descending scoreboard, falling back to the overall first. -/
def champion (g : Game) : Option Player :=
  let sorted := playersSorted g
  match sorted.filter (fun p => !p.eliminated) with
  | w :: _ => some w
  | [] => sorted.head?

/-- `end_game` (core.py 447-568), registry effects only: idempotence
guards, mark ended, release every player's `user_active_game` binding,
remove the game from `active_games`.  Chat output, sqlite bookkeeping
and task cancellation carry no engine state. -/
def endGame (r : RegState) (gid : Int) : RegState :=
  match r.lookupGame gid with
  | none => r
  | some g =>
    if g.ended then r
    else
      let g' := { g with ended := true }
      let r1 := r.updateGame gid g'
      let r2 := (playersSorted g').foldl (fun s p => s.unbindUser p.user_id) r1
      r2.removeGame gid

/-- `process_round_results` (core.py 199-364): idempotence guard, the
no-picks early exit into `end_game`, the pipeline of rule steps, the
end-of-match check, and otherwise the reset for the next round
(including the one-round-delayed hand-over of the duplicate flag,
lines 361-362).  The `asyncio.create_task(start_round(...))` at line
364 schedules the next round asynchronously and is not part of this
invocation.  Returns the new registry plus the reported summary. -/
def processRoundResults (r : RegState) (gid : Int) :
    RegState × Option RoundSummary :=
  match r.lookupGame gid with
  | none => (r, none)
  | some g0 =>
    if g0.round_results_sent then (r, none)
    else
      let g := { g0 with round_results_sent := true }
      let picks := g.picksOf
      if picks.isEmpty then
        (endGame (r.updateGame gid g) gid, none)
      else
        let S := 4 * (picks.map Prod.snd).sum
        let D := 5 * ((picks.map Prod.snd).length : Int)
        let dres := dupStep (scheduleDuplicate g picks) picks
        let g1 := dres.1
        let dupIds := dres.2.1
        let dupsExist := dres.2.2
        let winners0 := closestWinners g1 S D
        let zres := zeroHundredStep g1 dupIds winners0
        let g2 := zres.1
        let winners1 := zres.2.1
        let zeroCase := zres.2.2
        let numElim := (g2.players.filter (fun p => p.eliminated)).length
        let sres :=
          specialStep g2 dupIds winners1 zeroCase dupsExist numElim (pyRoundFrac S D)
        let g3 := sres.1
        let winners2 := sres.2.1
        let special := sres.2.2
        let g4 := genericStep g3 dupIds winners2 zeroCase dupsExist special
        let eres := elimStep g4 numElim
        let g5 := eres.1
        let elimNow := eres.2
        let summary : RoundSummary :=
          { target := roundTarget picks, winners := winners2, eliminatedNow := elimNow }
        if g5.activePlayers.length ≤ 1 then
          (endGame (r.updateGame gid g5) gid, some summary)
        else
          let g6 := { g5.resetRoundPicks with
                      current_round_active := false
                      round_results_sent := false
                      duplicate_rule_active := g5.next_round_duplicate_active
                      next_round_duplicate_active := false }
          (r.updateGame gid g6, some summary)

/-! ## Miss handling, pick submission, round start and the lobby -/

/-- The per-player mutation of `handle_miss` (core.py 142-156): first
miss (timeout counter still 0) costs −1, marks the pick `"Skipped"` and
sets the counter; any later miss eliminates outright. -/
def handleMissPlayer (p : Player) : Player :=
  if p.timeout_count == 0 then
    { p with score := p.score - 1
             total_penalties := p.total_penalties + 1
             timeout_count := 1
             current_number := .skipped }
  else { p with eliminated := true }

/-- `handle_miss` (core.py 135-163): staleness guards (game gone,
unknown player, already eliminated, already picked), the miss penalty
or elimination, then the round-complete check which triggers
`process_round_results`. -/
def handleMiss (r : RegState) (gid uid : Int) : RegState × Option RoundSummary :=
  match r.lookupGame gid with
  | none => (r, none)
  | some g =>
    match g.findPlayer uid with
    | none => (r, none)
    | some p =>
      if p.eliminated || p.current_number.isSet then (r, none)
      else
        let g1 := g.updatePlayer uid handleMissPlayer
        let r1 := r.updateGame gid g1
        if g1.activePlayers.all (fun pl => pl.current_number.isSet || pl.eliminated) then
          let g2 := { g1 with current_round_active := false }
          processRoundResults (r1.updateGame gid g2) gid
        else (r1, none)

/-- `text.strip().isdigit()`: non-empty and all digit characters
(the handler receives the stripped text). -/
def isDigitString (s : List Char) : Bool :=
  !s.isEmpty && s.all (fun c => c.isDigit)

/-- `int(text)` on an all-digit string. -/
def digitsToInt (s : List Char) : Int :=
  s.foldl (fun a c => a * 10 + ((c.toNat : Int) - 48)) 0

/-- The reply `dm_pick_handler` sends back for each guard
(core.py 366-427), one constructor per distinct message. -/
inductive PickReply where
  | noGameMembership
  | staleGame
  | noActiveRound
  | notANumber
  | outOfRange
  | notAPlayer
  | alreadyEliminated
  | alreadyPicked
  | accepted (n : Int)
deriving DecidableEq, Repr

/-- `dm_pick_handler` (core.py 366-445): the guard chain in source
order, recording the pick on success, then the all-picked check that
triggers `process_round_results`. -/
def dmPickHandler (r : RegState) (uid : Int) (text : List Char) :
    RegState × PickReply :=
  match r.lookupUser uid with
  | none => (r, .noGameMembership)
  | some gid =>
    match r.lookupGame gid with
    | none => (r.unbindUser uid, .staleGame)
    | some g =>
      if !g.current_round_active then (r, .noActiveRound)
      else if !isDigitString text then (r, .notANumber)
      else
        let n := digitsToInt text
        if !(decide (0 ≤ n) && decide (n ≤ 100)) then (r, .outOfRange)
        else
          match g.findPlayer uid with
          | none => (r, .notAPlayer)
          | some p =>
            if p.eliminated then (r, .alreadyEliminated)
            else if p.current_number.isSet then (r, .alreadyPicked)
            else
              let g1 := g.updatePlayer uid
                  (fun q => { q with current_number := .picked n })
              let r1 := r.updateGame gid g1
              if g1.players.all (fun pl => pl.current_number.isSet || pl.eliminated) then
                ((processRoundResults r1 gid).1, .accepted n)
              else (r1, .accepted n)

/-- `start_round` (core.py 73-133 / game.py 199-269), state effects:
re-entrancy guard, mark the round active, bump the round counter,
clear picks and the idempotence guard; with no active player left the
game ends.  Announcements, DMs and timer arming are external. -/
def startRound (r : RegState) (gid : Int) : RegState :=
  match r.lookupGame gid with
  | none => r
  | some g =>
    if g.current_round_active then r
    else
      let g1 := { g.resetRoundPicks with
                  current_round_active := true
                  round_number := g.round_number + 1
                  round_results_sent := false }
      let r1 := r.updateGame gid g1
      if g1.activePlayers.isEmpty then endGame r1 gid else r1

/-- `MindScaleGame.add_player` (core.py 55-59) on the registered game:
insert a fresh player (if absent) and bind the user to the group. -/
def addPlayer (r : RegState) (gid uid : Int) : RegState :=
  match r.lookupGame gid with
  | none => r
  | some g =>
    if (g.findPlayer uid).isSome then r
    else
      let g1 := { g with players := g.players ++ [Player.init uid] }
      (r.updateGame gid g1).bindUser uid gid

/-- `MindScaleGame.remove_player` (core.py 61-64) on the registered
game: drop the entry (if present) and unconditionally pop the user's
binding. -/
def removePlayer (r : RegState) (gid uid : Int) : RegState :=
  match r.lookupGame gid with
  | none => r
  | some g =>
    let g1 := { g with players := g.players.filter (fun p => !(p.user_id == uid)) }
    (r.updateGame gid g1).unbindUser uid

/-- Modelled from the spec: `MAX_PLAYERS` is imported from `config.py`,
which is not among the sources; the spec fixes the hard cap at 7
(`end_join_phase` hardcodes the same 7). -/
def MAX_PLAYERS : Nat := 7

/-- The `join` handler (game.py 984-1053): reject when the user is
bound to any game, when no game or no open join phase exists, or at
the cap; otherwise `add_player`, and on reaching the cap exactly,
close the join phase and start round 1 immediately. -/
def joinOp (r : RegState) (gid uid : Int) : RegState :=
  if (r.lookupUser uid).isSome then r
  else
    match r.lookupGame gid with
    | none => r
    | some g =>
      if !g.join_phase_active then r
      else if MAX_PLAYERS ≤ g.players.length then r
      else
        let r1 := addPlayer r gid uid
        match r1.lookupGame gid with
        | none => r1
        | some g1 =>
          if g1.players.length == MAX_PLAYERS then
            startRound (r1.updateGame gid { g1 with join_phase_active := false }) gid
          else r1

/-- The `leave` handler (game.py 1056-1091): only during the join
phase, and only for a joined player, `remove_player`. -/
def leaveOp (r : RegState) (gid uid : Int) : RegState :=
  match r.lookupGame gid with
  | none => r
  | some g =>
    if !g.join_phase_active then r
    else if (g.findPlayer uid).isNone then r
    else removePlayer r gid uid

/-- `end_join_phase` (game.py 928-981): close the join phase; below 5
players cancel the match, unbinding everyone and deleting the game;
otherwise truncate the player dict to the first 7 — the source does
NOT pop the dropped players' `user_active_game` bindings — and start
round 1. -/
def endJoinPhase (r : RegState) (gid : Int) : RegState :=
  match r.lookupGame gid with
  | none => r
  | some g =>
    let g1 := { g with join_phase_active := false }
    if g1.players.length < 5 then
      let r1 := g1.players.foldl (fun s p => s.unbindUser p.user_id) (r.updateGame gid g1)
      r1.removeGame gid
    else
      let g2 := if 7 < g1.players.length
                then { g1 with players := g1.players.take 7 } else g1
      startRound (r.updateGame gid g2) gid

/-! ## Basic lemmas about the registry and player-map helpers -/

theorem RegState.lookupGame_updateGame_self (r : RegState) (gid : Int)
    (g g0 : Game) (h : r.lookupGame gid = some g0) :
    (r.updateGame gid g).lookupGame gid = some g := by
  unfold RegState.lookupGame RegState.updateGame at *
  simp only [List.find?_map] at *
  have hfun : ((fun q : Int × Game => q.1 == gid) ∘
      (fun q => if q.1 == gid then (q.1, g) else q)) =
      (fun q : Int × Game => q.1 == gid) := by
    funext q
    have h1 : (if q.1 == gid then (q.1, g) else q).1 = q.1 := by
      split <;> rfl
    simp only [Function.comp_apply]
    rw [h1]
  rw [hfun]
  obtain ⟨q0, hq0, -⟩ := Option.map_eq_some'.mp h
  have hp : q0.1 = gid := by simpa using List.find?_some hq0
  simp [hq0, hp]

theorem RegState.lookupGame_updateGame_ne (r : RegState) (gid gid' : Int)
    (g : Game) (h : gid' ≠ gid) :
    (r.updateGame gid g).lookupGame gid' = r.lookupGame gid' := by
  unfold RegState.lookupGame RegState.updateGame
  simp only [List.find?_map]
  have hfun : ((fun q : Int × Game => q.1 == gid') ∘
      (fun q => if q.1 == gid then (q.1, g) else q)) =
      (fun q : Int × Game => q.1 == gid') := by
    funext q
    have h1 : (if q.1 == gid then (q.1, g) else q).1 = q.1 := by
      split <;> rfl
    simp only [Function.comp_apply]
    rw [h1]
  rw [hfun]
  cases hfind : r.active_games.find? (fun q => q.1 == gid') with
  | none => simp
  | some q0 =>
      have h1 : q0.1 = gid' := by simpa using List.find?_some hfind
      simp [h1, h]

theorem Game.findPlayer_updatePlayer (g : Game) (uid : Int)
    (f : Player → Player) (hid : ∀ p, (f p).user_id = p.user_id) :
    (g.updatePlayer uid f).findPlayer uid =
      (g.findPlayer uid).map (fun p => if p.user_id == uid then f p else p) := by
  unfold Game.findPlayer Game.updatePlayer
  simp only [List.find?_map]
  have hfun : ((fun p : Player => p.user_id == uid) ∘
      (fun p => if p.user_id == uid then f p else p)) =
      (fun p : Player => p.user_id == uid) := by
    funext p
    simp only [Function.comp_apply, beq_iff_eq]
    by_cases hp : p.user_id = uid <;> simp [hp, hid]
  rw [hfun]

/-- `find?` through a `players`-map whose function preserves `user_id`. -/
theorem Game.findPlayer_mapPlayers (g : Game) (uid : Int)
    (f : Player → Player) (hid : ∀ p, (f p).user_id = p.user_id) :
    (Game.findPlayer { g with players := g.players.map f } uid) =
      (g.findPlayer uid).map f := by
  unfold Game.findPlayer
  simp only [List.find?_map]
  have hfun : ((fun p : Player => p.user_id == uid) ∘ f) =
      (fun p : Player => p.user_id == uid) := by
    funext p
    simp [Function.comp, hid]
  rw [hfun]

/-- General list fact: pre-filtering by `a` does not change a
`filterMap` over the `b`-filtered list when every `b`-kept,
`a`-dropped element maps to `none`. -/
theorem filterMap_filter_congr {α β : Type} (f : α → Option β)
    (a b : α → Bool) (l : List α)
    (h : ∀ x ∈ l, b x = true → a x = false → f x = none) :
    (l.filter (fun x => b x && a x)).filterMap f = (l.filter b).filterMap f := by
  induction l with
  | nil => rfl
  | cons x xs ih =>
      have hx := h x (List.mem_cons_self _ _)
      have ih' := ih (fun y hy hby hay => h y (List.mem_cons_of_mem _ hy) hby hay)
      by_cases hbx : b x = true
      · by_cases hax : a x = true
        · simp only [List.filter_cons, hbx, hax, Bool.and_self, if_true]
          simp [List.filterMap_cons, ih']
        · have hax' : a x = false := by simpa using hax
          have hfx := hx hbx hax'
          simp [List.filter_cons, hbx, hax', List.filterMap_cons, ih', hfx]
      · have hbx' : b x = false := by simpa using hbx
        simp [List.filter_cons, hbx', ih']

/-- Spec-side definition, written from the spec's words for
comparison: the target is 0.8 × the arithmetic mean of the numeric
picks of the active players, a missed pick contributing no value. -/
def specTargetMean (g : Game) : ℚ :=
  let vals := g.activePlayers.filterMap (fun p =>
    match p.current_number with
    | .picked n => some ((n : ℚ))
    | _ => none)
  (0.8 : ℚ) * (vals.sum / vals.length)

/-- Claim C1: for a round resolved with at least one numeric pick, the
target computed by `process_round_results` equals 0.8 × the arithmetic
mean of the numeric picks of active players; and a player all of whose
entries are marked missed contributes nothing — deleting them from the
player map leaves the round's pick list (hence the target) unchanged. -/
theorem C1_target_is_scaled_mean (g : Game) (h : g.picksOf ≠ []) :
    roundTarget g.picksOf = specTargetMean g ∧
    (∀ uid : Int,
      (∀ p ∈ g.players, p.user_id = uid → p.current_number = .skipped) →
      Game.picksOf
          { g with players := g.players.filter (fun p => !(p.user_id == uid)) } =
        g.picksOf) := by
  constructor
  · have e1 : (g.picksOf).map Prod.snd =
        g.activePlayers.filterMap (fun p =>
          match p.current_number with
          | Pick.picked n => some n
          | _ => none) := by
      unfold Game.picksOf
      rw [List.map_filterMap]
      have hf : (fun p : Player => (match p.current_number with
          | Pick.picked n => some (p.user_id, n)
          | _ => none).map Prod.snd) = (fun p : Player =>
          match p.current_number with
          | Pick.picked n => some n
          | _ => none) := by
        funext p
        cases p.current_number <;> rfl
      rw [hf]
    have e2 : g.activePlayers.filterMap (fun p =>
        match p.current_number with
        | Pick.picked n => some ((n : ℚ))
        | _ => none) =
      (g.activePlayers.filterMap (fun p =>
        match p.current_number with
        | Pick.picked n => some n
        | _ => none)).map (fun n : Int => (n : ℚ)) := by
      rw [List.map_filterMap]
      have hf : (fun p : Player => (match p.current_number with
          | Pick.picked n => some n
          | _ => none).map (fun n : Int => (n : ℚ))) = (fun p : Player =>
          match p.current_number with
          | Pick.picked n => some ((n : ℚ))
          | _ => none) := by
        funext p
        cases p.current_number <;> rfl
      rw [hf]
    unfold roundTarget specTargetMean
    simp only [e2, ← e1, List.length_map]
    ring
  · intro uid hall
    unfold Game.picksOf Game.activePlayers
    rw [List.filter_filter]
    have := filterMap_filter_congr
      (fun p : Player => match p.current_number with
        | Pick.picked n => some (p.user_id, n)
        | _ => none)
      (fun p : Player => !(p.user_id == uid))
      (fun p : Player => !p.eliminated)
      g.players
      (by
        intro x hx _ hax
        have hxu : x.user_id = uid := by simpa using hax
        have hsk := hall x hx hxu
        simp [hsk])
    exact this

/-- A four-player round with picks {20, 40, 60, 80}. -/
def c1Game : Game :=
  { Game.init 9 with players := [
      { Player.init 1 with current_number := .picked 20 },
      { Player.init 2 with current_number := .picked 40 },
      { Player.init 3 with current_number := .picked 60 },
      { Player.init 4 with current_number := .picked 80 }] }

/-- Witness for C1: picks {20,40,60,80} give mean 50 and target 40. -/
theorem C1_target_is_scaled_mean_witness :
    c1Game.picksOf ≠ [] ∧
    roundTarget c1Game.picksOf = specTargetMean c1Game ∧
    roundTarget c1Game.picksOf = 40 := by
  refine ⟨by decide, (C1_target_is_scaled_mean c1Game (by decide)).1, ?_⟩
  have e : c1Game.picksOf = [(1, 20), (2, 40), (3, 60), (4, 80)] := by rfl
  rw [e]
  norm_num [roundTarget]

/-- `startgame`/`mode_selection` (game.py 863-870): register a fresh
`MindScaleGame` for the group unless one is already running. -/
def createGame (r : RegState) (gid : Int) : RegState :=
  if (r.lookupGame gid).isSome then r
  else { r with active_games := r.active_games ++ [(gid, Game.init gid)] }

/-! ## Engine evolution

Every engine operation turns each game's player list into a new one in
which every entry either is freshly initialized or descends from a
same-id entry with no greater score and an unchanged (never set)
`timeout_penalty_applied` flag.  This is the shared backbone for the
score-monotonicity and guard-flag claims. -/

/-- Player-list evolution under one engine operation. -/
def evolves (l l' : List Player) : Prop :=
  ∀ p' ∈ l', (p'.score ≤ 0 ∧ p'.timeout_penalty_applied = false) ∨
    ∃ p ∈ l, p.user_id = p'.user_id ∧ p'.score ≤ p.score ∧
      p'.timeout_penalty_applied = p.timeout_penalty_applied

theorem evolves_refl (l : List Player) : evolves l l :=
  fun p' hp' => Or.inr ⟨p', hp', rfl, le_refl _, rfl⟩

theorem evolves_trans {a b c : List Player}
    (h1 : evolves a b) (h2 : evolves b c) : evolves a c := by
  intro p' hp'
  rcases h2 p' hp' with hfresh | ⟨p, hp, hid, hle, hflag⟩
  · exact Or.inl hfresh
  · rcases h1 p hp with ⟨hs, hf⟩ | ⟨q, hq, hid2, hle2, hflag2⟩
    · exact Or.inl ⟨hle.trans hs, hflag.trans hf⟩
    · exact Or.inr ⟨q, hq, hid2.trans hid, hle.trans hle2, hflag.trans hflag2⟩

theorem evolves_of_subset {l l' : List Player} (h : l' ⊆ l) : evolves l l' :=
  fun p' hp' => Or.inr ⟨p', h hp', rfl, le_refl _, rfl⟩

theorem evolves_map {l : List Player} (f : Player → Player)
    (hf : ∀ p, (f p).user_id = p.user_id ∧ (f p).score ≤ p.score ∧
      (f p).timeout_penalty_applied = p.timeout_penalty_applied) :
    evolves l (l.map f) := by
  intro p' hp'
  obtain ⟨p, hp, rfl⟩ := List.mem_map.mp hp'
  exact Or.inr ⟨p, hp, ((hf p).1).symm, (hf p).2.1, (hf p).2.2⟩

theorem evolves_append_init (l : List Player) (uid : Int) :
    evolves l (l ++ [Player.init uid]) := by
  intro p' hp'
  rcases List.mem_append.mp hp' with h | h
  · exact Or.inr ⟨p', h, rfl, le_refl _, rfl⟩
  · rw [List.mem_singleton.mp h]
    exact Or.inl ⟨le_refl 0, rfl⟩

/-- Registry-level evolution. -/
def regEvolves (r r' : RegState) : Prop :=
  ∀ gid g', r'.lookupGame gid = some g' →
    (∀ p' ∈ g'.players, p'.score ≤ 0 ∧ p'.timeout_penalty_applied = false) ∨
    ∃ g, r.lookupGame gid = some g ∧ evolves g.players g'.players

theorem regEvolves_refl (r : RegState) : regEvolves r r :=
  fun _ g' h => Or.inr ⟨g', h, evolves_refl _⟩

theorem regEvolves_trans {a b c : RegState}
    (h1 : regEvolves a b) (h2 : regEvolves b c) : regEvolves a c := by
  intro gid g'' hg''
  rcases h2 gid g'' hg'' with hfresh | ⟨g', hg', hev⟩
  · exact Or.inl hfresh
  · rcases h1 gid g' hg' with hfresh' | ⟨g, hg, hev'⟩
    · refine Or.inl ?_
      intro p'' hp''
      rcases hev p'' hp'' with h | ⟨p', hp', _, hle, hflag⟩
      · exact h
      · exact ⟨hle.trans (hfresh' p' hp').1, hflag.trans (hfresh' p' hp').2⟩
    · exact Or.inr ⟨g, hg, evolves_trans hev' hev⟩

theorem regEvolves_of_games_eq {r r' : RegState}
    (h : r'.active_games = r.active_games) : regEvolves r r' := by
  intro gid g' h'
  refine Or.inr ⟨g', ?_, evolves_refl _⟩
  unfold RegState.lookupGame at h' ⊢
  rw [h] at h'
  exact h'

theorem regEvolves_updateGame (r : RegState) (gid : Int) (g g1 : Game)
    (hg : r.lookupGame gid = some g) (he : evolves g.players g1.players) :
    regEvolves r (r.updateGame gid g1) := by
  intro gid' g' h'
  by_cases hx : gid' = gid
  · subst hx
    rw [RegState.lookupGame_updateGame_self r gid' g1 g hg] at h'
    cases h'
    exact Or.inr ⟨g, hg, he⟩
  · rw [RegState.lookupGame_updateGame_ne r gid gid' g1 hx] at h'
    exact Or.inr ⟨g', h', evolves_refl _⟩

theorem find?_filter_imp {α : Type} (p q : α → Bool) (l : List α)
    (himp : ∀ x, p x = true → q x = true) :
    (l.filter q).find? p = l.find? p := by
  induction l with
  | nil => rfl
  | cons x xs ih =>
      by_cases hq : q x = true
      · rw [List.filter_cons_of_pos hq]
        by_cases hp : p x = true <;> simp [List.find?_cons, hp, ih]
      · have hq' : q x = false := by simpa using hq
        have hp' : p x = false := by
          by_cases hp : p x = true
          · exact absurd (himp x hp) (by simp [hq'])
          · simpa using hp
        rw [List.filter_cons_of_neg (by simp [hq'])]
        simp [List.find?_cons, hp', ih]

theorem RegState.lookupGame_removeGame_ne (r : RegState) (gid gid' : Int)
    (h : gid' ≠ gid) :
    (r.removeGame gid).lookupGame gid' = r.lookupGame gid' := by
  unfold RegState.lookupGame RegState.removeGame
  rw [find?_filter_imp]
  intro x hx
  have : x.1 = gid' := by simpa using hx
  simp [this, h]

theorem RegState.lookupGame_removeGame_self (r : RegState) (gid : Int) :
    (r.removeGame gid).lookupGame gid = none := by
  unfold RegState.lookupGame RegState.removeGame
  rw [List.find?_eq_none.mpr]
  · rfl
  · intro x hx
    have := (List.mem_filter.mp hx).2
    simp only [Bool.not_eq_true'] at this
    simp [this]

theorem regEvolves_removeGame (r : RegState) (gid : Int) :
    regEvolves r (r.removeGame gid) := by
  intro gid' g' h'
  by_cases hx : gid' = gid
  · subst hx
    rw [RegState.lookupGame_removeGame_self] at h'
    cases h'
  · rw [RegState.lookupGame_removeGame_ne r gid gid' hx] at h'
    exact Or.inr ⟨g', h', evolves_refl _⟩

theorem bindUser_active_games (r : RegState) (uid gid : Int) :
    (r.bindUser uid gid).active_games = r.active_games := by
  unfold RegState.bindUser
  split <;> rfl

theorem foldl_unbind_active_games (l : List Player) (r : RegState) :
    (l.foldl (fun s p => s.unbindUser p.user_id) r).active_games =
      r.active_games := by
  induction l generalizing r with
  | nil => rfl
  | cons x xs ih => rw [List.foldl_cons, ih]; rfl

theorem scheduleDuplicate_players (g : Game) (picks : List (Int × Int)) :
    (scheduleDuplicate g picks).players = g.players := by
  unfold scheduleDuplicate
  split <;> rfl

theorem penalize_facts (p : Player) (k : Int) (hk : 0 ≤ k) :
    (p.penalize k).user_id = p.user_id ∧ (p.penalize k).score ≤ p.score ∧
      (p.penalize k).timeout_penalty_applied = p.timeout_penalty_applied :=
  ⟨rfl, by show p.score - k ≤ p.score; omega, rfl⟩

theorem evolves_penalize_map (l : List Player) (c : Player → Bool) (k : Int)
    (hk : 0 ≤ k) :
    evolves l (l.map (fun p => if c p then p.penalize k else p)) := by
  apply evolves_map
  intro p
  by_cases hc : c p = true
  · simpa [hc] using penalize_facts p k hk
  · have hc' : c p = false := by simpa using hc
    simp [hc']

theorem evolves_dupStep (g : Game) (picks : List (Int × Int)) :
    evolves g.players ((dupStep g picks).1).players := by
  unfold dupStep
  split
  · exact evolves_penalize_map _ _ 1 (by norm_num)
  · exact evolves_refl _

theorem evolves_zeroHundredStep (g : Game) (dupIds winners : List Int) :
    evolves g.players ((zeroHundredStep g dupIds winners).1).players := by
  unfold zeroHundredStep
  dsimp only
  split
  · split
    · exact evolves_refl _
    · exact evolves_penalize_map _ _ 1 (by norm_num)
  · exact evolves_refl _

theorem evolves_specialStep (g : Game) (dupIds winners : List Int)
    (zeroCase dupsExist : Bool) (numElim : Nat) (rt : Int) :
    evolves g.players
      ((specialStep g dupIds winners zeroCase dupsExist numElim rt).1).players := by
  unfold specialStep
  dsimp only
  split
  · split
    · exact evolves_refl _
    · exact evolves_penalize_map _ _ 2 (by norm_num)
  · exact evolves_refl _

theorem evolves_genericStep (g : Game) (dupIds winners : List Int)
    (zeroCase dupsExist special : Bool) :
    evolves g.players
      (genericStep g dupIds winners zeroCase dupsExist special).players := by
  unfold genericStep
  split
  · exact evolves_refl _
  · exact evolves_penalize_map _ _ 1 (by norm_num)

theorem evolves_elimStep (g : Game) (numElim : Nat) :
    evolves g.players ((elimStep g numElim).1).players := by
  unfold elimStep
  dsimp only
  have hmap : evolves g.players (g.players.map (fun p =>
      if !p.eliminated && decide (p.score ≤ -10)
      then { p with eliminated := true } else p)) := by
    apply evolves_map
    intro p
    by_cases hc : (!p.eliminated && decide (p.score ≤ -10)) = true
    · simp [hc]
    · have hc' : (!p.eliminated && decide (p.score ≤ -10)) = false := by
        simpa using hc
      simp [hc']
  split <;> exact hmap

theorem evolves_resetMap (l : List Player) :
    evolves l (l.map (fun p => { p with current_number := Pick.unset })) :=
  evolves_map _ (fun _ => ⟨rfl, le_refl _, rfl⟩)

theorem regEvolves_endGame (r : RegState) (gid : Int) :
    regEvolves r (endGame r gid) := by
  unfold endGame
  cases hg : r.lookupGame gid with
  | none => exact regEvolves_refl r
  | some g =>
      dsimp only
      split
      · exact regEvolves_refl r
      · refine regEvolves_trans ?_ (regEvolves_removeGame _ gid)
        refine regEvolves_trans ?_
          (regEvolves_of_games_eq (foldl_unbind_active_games _ _))
        exact regEvolves_updateGame r gid g _ hg (evolves_refl _)

theorem regEvolves_startRound (r : RegState) (gid : Int) :
    regEvolves r (startRound r gid) := by
  unfold startRound
  cases hg : r.lookupGame gid with
  | none => exact regEvolves_refl r
  | some g =>
      dsimp only
      split
      · exact regEvolves_refl r
      · split
        · refine regEvolves_trans ?_ (regEvolves_endGame _ gid)
          exact regEvolves_updateGame r gid g _ hg (evolves_resetMap _)
        · exact regEvolves_updateGame r gid g _ hg (evolves_resetMap _)

theorem regEvolves_process (r : RegState) (gid : Int) :
    regEvolves r ((processRoundResults r gid).1) := by
  unfold processRoundResults
  cases hg : r.lookupGame gid with
  | none => exact regEvolves_refl r
  | some g =>
      dsimp only
      split
      · exact regEvolves_refl r
      · split
        · refine regEvolves_trans ?_ (regEvolves_endGame _ gid)
          exact regEvolves_updateGame r gid g _ hg (evolves_refl _)
        · split
          · refine regEvolves_trans ?_ (regEvolves_endGame _ gid)
            refine regEvolves_updateGame r gid g _ hg ?_
            refine evolves_trans ?_ (evolves_elimStep _ _)
            refine evolves_trans ?_ (evolves_genericStep _ _ _ _ _ _)
            refine evolves_trans ?_ (evolves_specialStep _ _ _ _ _ _ _)
            refine evolves_trans ?_ (evolves_zeroHundredStep _ _ _)
            refine evolves_trans ?_ (evolves_dupStep _ _)
            rw [scheduleDuplicate_players]
            exact evolves_refl _
          · refine regEvolves_updateGame r gid g _ hg ?_
            refine evolves_trans ?_ (evolves_resetMap _)
            refine evolves_trans ?_ (evolves_elimStep _ _)
            refine evolves_trans ?_ (evolves_genericStep _ _ _ _ _ _)
            refine evolves_trans ?_ (evolves_specialStep _ _ _ _ _ _ _)
            refine evolves_trans ?_ (evolves_zeroHundredStep _ _ _)
            refine evolves_trans ?_ (evolves_dupStep _ _)
            rw [scheduleDuplicate_players]
            exact evolves_refl _

theorem regEvolves_handleMiss (r : RegState) (gid uid : Int) :
    regEvolves r ((handleMiss r gid uid).1) := by
  unfold handleMiss
  cases hg : r.lookupGame gid with
  | none => exact regEvolves_refl r
  | some g =>
      dsimp only
      cases hf : g.findPlayer uid with
      | none => exact regEvolves_refl r
      | some p =>
          dsimp only
          split
          · exact regEvolves_refl r
          · have hg1 : evolves g.players
                (g.updatePlayer uid handleMissPlayer).players := by
              apply evolves_map
              intro q
              by_cases hq : (q.user_id == uid) = true
              · simp only [hq, if_true]
                unfold handleMissPlayer
                split
                · exact ⟨rfl, by show q.score - 1 ≤ q.score; omega, rfl⟩
                · exact ⟨rfl, le_refl _, rfl⟩
              · have hq' : (q.user_id == uid) = false := by simpa using hq
                simp [hq']
            split
            · refine regEvolves_trans ?_ (regEvolves_process _ gid)
              refine regEvolves_trans
                (regEvolves_updateGame r gid g
                  (g.updatePlayer uid handleMissPlayer) hg hg1) ?_
              exact regEvolves_updateGame _ gid
                (g.updatePlayer uid handleMissPlayer)
                { g.updatePlayer uid handleMissPlayer with
                    current_round_active := false }
                (RegState.lookupGame_updateGame_self r gid _ g hg)
                (evolves_refl _)
            · exact regEvolves_updateGame r gid g _ hg hg1

theorem regEvolves_dmPick (r : RegState) (uid : Int) (text : List Char) :
    regEvolves r ((dmPickHandler r uid text).1) := by
  unfold dmPickHandler
  cases hU : r.lookupUser uid with
  | none => exact regEvolves_refl r
  | some gid =>
      dsimp only
      cases hG : r.lookupGame gid with
      | none => exact regEvolves_of_games_eq rfl
      | some g =>
          dsimp only
          split
          · exact regEvolves_refl r
          · split
            · exact regEvolves_refl r
            · split
              · exact regEvolves_refl r
              · cases hF : g.findPlayer uid with
                | none => exact regEvolves_refl r
                | some p =>
                    dsimp only
                    split
                    · exact regEvolves_refl r
                    · split
                      · exact regEvolves_refl r
                      · have hg1 : evolves g.players
                            (g.updatePlayer uid (fun q =>
                              { q with current_number :=
                                  Pick.picked (digitsToInt text) })).players := by
                          apply evolves_map
                          intro q
                          by_cases hq : (q.user_id == uid) = true
                          · simp [hq]
                          · have hq' : (q.user_id == uid) = false := by
                              simpa using hq
                            simp [hq']
                        split
                        · refine regEvolves_trans ?_ (regEvolves_process _ gid)
                          exact regEvolves_updateGame r gid g _ hG hg1
                        · exact regEvolves_updateGame r gid g _ hG hg1

theorem regEvolves_addPlayer (r : RegState) (gid uid : Int) :
    regEvolves r (addPlayer r gid uid) := by
  unfold addPlayer
  cases hg : r.lookupGame gid with
  | none => exact regEvolves_refl r
  | some g =>
      dsimp only
      split
      · exact regEvolves_refl r
      · refine regEvolves_trans ?_
          (regEvolves_of_games_eq (bindUser_active_games _ _ _))
        exact regEvolves_updateGame r gid g _ hg (evolves_append_init _ _)

theorem regEvolves_removePlayer (r : RegState) (gid uid : Int) :
    regEvolves r (removePlayer r gid uid) := by
  unfold removePlayer
  cases hg : r.lookupGame gid with
  | none => exact regEvolves_refl r
  | some g =>
      dsimp only
      refine regEvolves_trans ?_ (regEvolves_of_games_eq rfl)
      exact regEvolves_updateGame r gid g _ hg
        (evolves_of_subset (List.filter_sublist _).subset)

theorem regEvolves_createGame (r : RegState) (gid : Int) :
    regEvolves r (createGame r gid) := by
  unfold createGame
  split
  · exact regEvolves_refl r
  · intro gid' g' h'
    unfold RegState.lookupGame at h'
    rw [List.find?_append] at h'
    cases hfind : r.active_games.find? (fun q => q.1 == gid') with
    | some q =>
        rw [hfind] at h'
        refine Or.inr ⟨g', ?_, evolves_refl _⟩
        unfold RegState.lookupGame
        rw [hfind]
        simpa using h'
    | none =>
        rw [hfind] at h'
        simp only [Option.none_or] at h'
        by_cases hgg : (gid == gid') = true
        · simp [List.find?_cons, hgg] at h'
          rw [← h']
          exact Or.inl (by intro p' hp'; simp [Game.init] at hp')
        · have hgg' : (gid == gid') = false := by simpa using hgg
          simp [List.find?_cons, hgg'] at h'

theorem regEvolves_joinOp (r : RegState) (gid uid : Int) :
    regEvolves r (joinOp r gid uid) := by
  unfold joinOp
  split
  · exact regEvolves_refl r
  · cases hg : r.lookupGame gid with
    | none => exact regEvolves_refl r
    | some g =>
        dsimp only
        split
        · exact regEvolves_refl r
        · split
          · exact regEvolves_refl r
          · cases hg1 : (addPlayer r gid uid).lookupGame gid with
            | none => exact regEvolves_addPlayer r gid uid
            | some g1 =>
                dsimp only
                split
                · refine regEvolves_trans (regEvolves_addPlayer r gid uid) ?_
                  refine regEvolves_trans ?_ (regEvolves_startRound _ gid)
                  exact regEvolves_updateGame _ gid g1
                    { g1 with join_phase_active := false } hg1 (evolves_refl _)
                · exact regEvolves_addPlayer r gid uid

theorem regEvolves_leaveOp (r : RegState) (gid uid : Int) :
    regEvolves r (leaveOp r gid uid) := by
  unfold leaveOp
  cases hg : r.lookupGame gid with
  | none => exact regEvolves_refl r
  | some g =>
      dsimp only
      split
      · exact regEvolves_refl r
      · split
        · exact regEvolves_refl r
        · exact regEvolves_removePlayer r gid uid

theorem regEvolves_endJoinPhase (r : RegState) (gid : Int) :
    regEvolves r (endJoinPhase r gid) := by
  unfold endJoinPhase
  cases hg : r.lookupGame gid with
  | none => exact regEvolves_refl r
  | some g =>
      dsimp only
      split
      · refine regEvolves_trans ?_ (regEvolves_removeGame _ gid)
        refine regEvolves_trans ?_
          (regEvolves_of_games_eq (foldl_unbind_active_games _ _))
        exact regEvolves_updateGame r gid g
          { g with join_phase_active := false } hg (evolves_refl _)
      · split
        · refine regEvolves_trans ?_ (regEvolves_startRound _ gid)
          exact regEvolves_updateGame r gid g _ hg
            (evolves_of_subset (List.take_subset _ _))
        · refine regEvolves_trans ?_ (regEvolves_startRound _ gid)
          exact regEvolves_updateGame r gid g _ hg (evolves_refl _)

/-- Every entry point of the engine, as invoked by the chat layer or
the timers. -/
inductive EngineOp where
  | create (gid : Int)
  | addP (gid uid : Int)
  | removeP (gid uid : Int)
  | joinU (gid uid : Int)
  | leaveU (gid uid : Int)
  | endJoin (gid : Int)
  | start (gid : Int)
  | miss (gid uid : Int)
  | pick (uid : Int) (text : List Char)
  | process (gid : Int)
  | finish (gid : Int)

/-- Run one engine operation on the registry. -/
def applyOp (r : RegState) : EngineOp → RegState
  | .create gid => createGame r gid
  | .addP gid uid => addPlayer r gid uid
  | .removeP gid uid => removePlayer r gid uid
  | .joinU gid uid => joinOp r gid uid
  | .leaveU gid uid => leaveOp r gid uid
  | .endJoin gid => endJoinPhase r gid
  | .start gid => startRound r gid
  | .miss gid uid => (handleMiss r gid uid).1
  | .pick uid text => (dmPickHandler r uid text).1
  | .process gid => (processRoundResults r gid).1
  | .finish gid => endGame r gid

/-- Master evolution theorem: every engine operation evolves the
registry. -/
theorem regEvolves_applyOp (r : RegState) (o : EngineOp) :
    regEvolves r (applyOp r o) := by
  cases o with
  | create gid => exact regEvolves_createGame r gid
  | addP gid uid => exact regEvolves_addPlayer r gid uid
  | removeP gid uid => exact regEvolves_removePlayer r gid uid
  | joinU gid uid => exact regEvolves_joinOp r gid uid
  | leaveU gid uid => exact regEvolves_leaveOp r gid uid
  | endJoin gid => exact regEvolves_endJoinPhase r gid
  | start gid => exact regEvolves_startRound r gid
  | miss gid uid => exact regEvolves_handleMiss r gid uid
  | pick uid text => exact regEvolves_dmPick r uid text
  | process gid => exact regEvolves_process r gid
  | finish gid => exact regEvolves_endGame r gid

/-- `handle_miss` never changes a player's identity. -/
theorem handleMissPlayer_user_id (p : Player) :
    (handleMissPlayer p).user_id = p.user_id := by
  unfold handleMissPlayer
  split <;> rfl

/-- Claim C3 (amended): a miss applies the −1 penalty, marks the pick
`"Skipped"` (present for round-completion, no numeric value) and raises
the miss counter on the first offense; any later miss eliminates
outright with no score change.  The `timeout_count` counter is never
reset, so the eliminating second miss need not be consecutive. -/
theorem C3_miss_penalty_then_elimination (r : RegState) (gid uid : Int)
    (g : Game) (p : Player)
    (hg : r.lookupGame gid = some g)
    (hp : g.findPlayer uid = some p)
    (halive : p.eliminated = false)
    (hunset : p.current_number = Pick.unset)
    (hincomplete : ((g.updatePlayer uid handleMissPlayer).activePlayers.all
        (fun pl => pl.current_number.isSet || pl.eliminated)) = false) :
    handleMiss r gid uid =
      (r.updateGame gid (g.updatePlayer uid handleMissPlayer), none) ∧
    (g.updatePlayer uid handleMissPlayer).findPlayer uid =
      some (handleMissPlayer p) ∧
    (p.timeout_count = 0 →
      (handleMissPlayer p).score = p.score - 1 ∧
      (handleMissPlayer p).current_number = Pick.skipped ∧
      (handleMissPlayer p).timeout_count = p.timeout_count + 1 ∧
      (handleMissPlayer p).eliminated = false) ∧
    (p.timeout_count ≠ 0 →
      handleMissPlayer p = { p with eliminated := true }) ∧
    Pick.isSet Pick.skipped = true ∧ Pick.isNum Pick.skipped = false := by
  refine ⟨?_, ?_, ?_, ?_, rfl, rfl⟩
  · unfold handleMiss
    simp only [hg]
    simp only [hp]
    split
    · rename_i hcond
      rw [halive, hunset] at hcond
      simp [Pick.isSet] at hcond
    · split
      · rename_i hall
        rw [hincomplete] at hall
        simp at hall
      · rfl
  · rw [Game.findPlayer_updatePlayer g uid handleMissPlayer handleMissPlayer_user_id,
      hp]
    have hid : p.user_id = uid := by
      have := List.find?_some (by simpa [Game.findPlayer] using hp)
      simpa using this
    simp [hid]
  · intro h0
    unfold handleMissPlayer
    simp [h0, halive]
  · intro h0
    unfold handleMissPlayer
    have : (p.timeout_count == 0) = false := by
      simpa using h0
    simp [this]

/-- Concrete three-player match for the C3 trace: group 10,
players 1, 2, 3. -/
def c3Start : RegState :=
  startRound (addPlayer (addPlayer (addPlayer
    { active_games := [(10, Game.init 10)], user_active_game := [] }
    10 1) 10 2) 10 3) 10

/-- Round 1 of the trace: players 1 and 2 pick, player 3 misses. -/
def c3Round1 : RegState :=
  (handleMiss (dmPickHandler (dmPickHandler c3Start 1 "20".toList).1
    2 "40".toList).1 10 3).1

/-- Round 2 start of the trace. -/
def c3Round2 : RegState := startRound c3Round1 10

/-- Round 2 after players 1 and 2 picked. -/
def c3Round2b : RegState :=
  (dmPickHandler (dmPickHandler c3Round2 1 "10".toList).1 2 "20".toList).1

/-- Round 2 resolved: player 3's intervening pick is valid. -/
def c3Round2c : RegState := (dmPickHandler c3Round2b 3 "30".toList).1

/-- Round 3: players 1 and 2 pick, player 3 misses a second time. -/
def c3Round3 : RegState :=
  (handleMiss (dmPickHandler (dmPickHandler (startRound c3Round2c 10)
    1 "10".toList).1 2 "20".toList).1 10 3).1

/-- Counterexample to C3 as stated: player 3 misses round 1 (miss
counter raised to 1, miss penalty plus non-winner penalty leave them at
−2 after resolution), submits the valid pick 30 in round 2 (accepted),
misses again in round 3 — and is eliminated by that non-consecutive
second miss (score unchanged at −3, so no extra penalty), contradicting
"a miss that is not consecutive … does not eliminate them". -/
theorem C3_counterexample :
    ((c3Round1.lookupGame 10).bind (fun g => g.findPlayer 3)).map
      Player.timeout_count = some 1 ∧
    ((c3Round1.lookupGame 10).bind (fun g => g.findPlayer 3)).map
      Player.score = some (-2) ∧
    (dmPickHandler c3Round2b 3 "30".toList).2 = PickReply.accepted 30 ∧
    ((c3Round3.lookupGame 10).bind (fun g => g.findPlayer 3)).map
      Player.eliminated = some true ∧
    ((c3Round3.lookupGame 10).bind (fun g => g.findPlayer 3)).map
      Player.score = some (-3) := by
  refine ⟨?_, ?_, ?_, ?_, ?_⟩ <;> decide

/-- A fresh two-player game used to witness the amended C3 theorem. -/
def c3wGame : Game :=
  { Game.init 7 with players := [Player.init 1, Player.init 2] }

/-- Registry holding `c3wGame`. -/
def c3wReg : RegState :=
  { active_games := [(7, c3wGame)], user_active_game := [(1, 7), (2, 7)] }

/-- Witness for the amended C3 theorem at a concrete first miss. -/
theorem C3_miss_penalty_then_elimination_witness :
    c3wReg.lookupGame 7 = some c3wGame ∧
    c3wGame.findPlayer 1 = some (Player.init 1) ∧
    (handleMiss c3wReg 7 1 =
      (c3wReg.updateGame 7 (c3wGame.updatePlayer 1 handleMissPlayer), none) ∧
    (c3wGame.updatePlayer 1 handleMissPlayer).findPlayer 1 =
      some (handleMissPlayer (Player.init 1)) ∧
    ((Player.init 1).timeout_count = 0 →
      (handleMissPlayer (Player.init 1)).score = (Player.init 1).score - 1 ∧
      (handleMissPlayer (Player.init 1)).current_number = Pick.skipped ∧
      (handleMissPlayer (Player.init 1)).timeout_count =
        (Player.init 1).timeout_count + 1 ∧
      (handleMissPlayer (Player.init 1)).eliminated = false) ∧
    ((Player.init 1).timeout_count ≠ 0 →
      handleMissPlayer (Player.init 1) =
        { Player.init 1 with eliminated := true }) ∧
    Pick.isSet Pick.skipped = true ∧ Pick.isNum Pick.skipped = false) :=
  ⟨by decide, by decide,
    C3_miss_penalty_then_elimination c3wReg 7 1 c3wGame (Player.init 1)
      (by decide) (by decide) (by decide) (by decide) (by decide)⟩

/-- `Player.penalize` preserves identity. -/
theorem penalize_user_id (p : Player) (k : Int) :
    (p.penalize k).user_id = p.user_id := rfl

/-- Claim C2: the duplicate-penalty rule is evaluated only with more
than 2 active players and the rule flagged active (otherwise it leaves
the game untouched and penalizes nobody); when evaluated, exactly the
active players whose pick value was chosen by ≥4 players take −1 and
enter the duplicate set; and — independently of the rule being active —
any value chosen by ≥4 players this round flags the rule for the next
round while leaving this round's `duplicate_rule_active` unchanged. -/
theorem C2_duplicate_rule (g : Game) :
    (¬(2 < g.activePlayers.length ∧ g.duplicate_rule_active = true) →
      dupStep g g.picksOf = (g, [], false)) ∧
    ((2 < g.activePlayers.length ∧ g.duplicate_rule_active = true) →
      ∀ uid p, g.findPlayer uid = some p → p.eliminated = false →
        ((∃ n, p.current_number = Pick.picked n ∧
            4 ≤ pickCount g.picksOf n) →
          (dupStep g g.picksOf).1.findPlayer uid = some (p.penalize 1) ∧
          uid ∈ (dupStep g g.picksOf).2.1) ∧
        ((¬∃ n, p.current_number = Pick.picked n ∧
            4 ≤ pickCount g.picksOf n) →
          (dupStep g g.picksOf).1.findPlayer uid = some p)) ∧
    ((∃ q ∈ g.picksOf, 4 ≤ pickCount g.picksOf q.2) →
      (scheduleDuplicate g g.picksOf).next_round_duplicate_active = true) ∧
    (scheduleDuplicate g g.picksOf).duplicate_rule_active =
      g.duplicate_rule_active := by
  refine ⟨?_, ?_, ?_, ?_⟩
  · intro hno
    unfold dupStep
    rw [if_neg hno]
  · intro hcond uid p hp halive
    have hid : p.user_id = uid := by
      have := List.find?_some (by simpa [Game.findPlayer] using hp)
      simpa using this
    have hmem : p ∈ g.players :=
      List.mem_of_find?_eq_some (by simpa [Game.findPlayer] using hp)
    have hfind' : ∀ f : Player → Player, (∀ q, (f q).user_id = q.user_id) →
        (Game.findPlayer { g with players := g.players.map f } uid) =
          some (f p) := by
      intro f hf
      rw [Game.findPlayer_mapPlayers g uid f hf, hp, Option.map_some']
    constructor
    · rintro ⟨n, hn, hcount⟩
      have hdup : pickInDupNums g.picksOf p.current_number = true := by
        rw [hn]
        simpa [pickInDupNums] using hcount
      constructor
      · unfold dupStep
        rw [if_pos hcond]
        have := hfind' (fun q =>
          if !q.eliminated && pickInDupNums g.picksOf q.current_number
          then q.penalize 1 else q)
          (by
            intro q
            by_cases hq : (!q.eliminated &&
                pickInDupNums g.picksOf q.current_number) = true <;>
              simp [hq, penalize_user_id])
        rw [this]
        simp [halive, hdup]
      · unfold dupStep
        rw [if_pos hcond]
        have hpa : p ∈ g.activePlayers := by
          unfold Game.activePlayers
          rw [List.mem_filter]
          exact ⟨hmem, by simp [halive]⟩
        have : p ∈ g.activePlayers.filter
            (fun q => pickInDupNums g.picksOf q.current_number) := by
          rw [List.mem_filter]
          exact ⟨hpa, hdup⟩
        simpa [hid] using List.mem_map_of_mem Player.user_id this
    · intro hnone
      have hdup : pickInDupNums g.picksOf p.current_number = false := by
        cases hc : p.current_number with
        | picked n =>
            have : ¬(4 ≤ pickCount g.picksOf n) := fun hle =>
              hnone ⟨n, hc, hle⟩
            simpa [pickInDupNums] using this
        | unset => rfl
        | skipped => rfl
      unfold dupStep
      rw [if_pos hcond]
      have := hfind' (fun q =>
        if !q.eliminated && pickInDupNums g.picksOf q.current_number
        then q.penalize 1 else q)
        (by
          intro q
          by_cases hq : (!q.eliminated &&
              pickInDupNums g.picksOf q.current_number) = true <;>
            simp [hq, penalize_user_id])
      rw [this]
      simp [hdup]
  · intro hex
    have hsome : someValuePicked4 g.picksOf = true := by
      unfold someValuePicked4
      rw [List.any_eq_true]
      obtain ⟨q, hq, hc⟩ := hex
      exact ⟨q, hq, by simpa using hc⟩
    unfold scheduleDuplicate
    rw [if_pos hsome]
  · unfold scheduleDuplicate
    split <;> rfl

/-- C4 scenario A: a fresh three-player match in group 30; players 1
and 2 pick, player 3 misses. -/
def c4MissRound : RegState :=
  (handleMiss (dmPickHandler (dmPickHandler
    (startRound (addPlayer (addPlayer (addPlayer
      { active_games := [(30, Game.init 30)], user_active_game := [] }
      30 1) 30 2) 30 3) 30)
    1 "20".toList).1 2 "40".toList).1 30 3).1

/-- C4 scenario B: five players, duplicate rule active, all picked —
four picked 30, player 5 picked 50. -/
def c4DupGame : Game :=
  { Game.init 41 with
    duplicate_rule_active := true
    current_round_active := true
    players := [{ Player.init 1 with current_number := .picked 30 },
                { Player.init 2 with current_number := .picked 30 },
                { Player.init 3 with current_number := .picked 30 },
                { Player.init 4 with current_number := .picked 30 },
                { Player.init 5 with current_number := .picked 50 }] }

/-- Registry for scenario B. -/
def c4DupReg : RegState :=
  { active_games := [(41, c4DupGame)]
    user_active_game := [(1, 41), (2, 41), (3, 41), (4, 41), (5, 41)] }

/-- Counterexample to C4 as stated.  Scenario A: player 3, already
penalized −1 for missing this round's pick, takes the generic
non-winner −1 as well and ends the round at −2 (the guard flag
`timeout_penalty_applied` is never set).  Scenario B: with the
duplicate rule triggered, player 5 — active, not a winner (winners are
the four 30-pickers), and not penalized by any step — escapes the
generic −1 entirely and ends at 0, not −1 as the claim requires. -/
theorem C4_counterexample :
    ((c4MissRound.lookupGame 30).bind (fun g => g.findPlayer 3)).map
      Player.score = some (-2) ∧
    ((processRoundResults c4DupReg 41).2).map RoundSummary.winners =
      some [1, 2, 3, 4] ∧
    (((processRoundResults c4DupReg 41).1.lookupGame 41).bind
      (fun g => g.findPlayer 5)).map Player.score = some 0 ∧
    (((processRoundResults c4DupReg 41).1.lookupGame 41).bind
      (fun g => g.findPlayer 1)).map Player.score = some (-1) := by
  refine ⟨?_, ?_, ?_, ?_⟩ <;> decide

/-- Claim C4 (amended): in the generic non-winner penalty step, when
the 0-vs-100 case does not apply, an active player takes −1 exactly
when they are not duplicate-penalized, not in the winner set, their
`timeout_penalty_applied` flag is clear, and neither the duplicate rule
nor the exact-target step applied this round (when either applied, all
remaining non-winners are skipped, not only the players those steps
penalized); and since no engine operation ever sets
`timeout_penalty_applied`, a player penalized for missing this round's
pick is additionally penalized as a non-winner. -/
theorem C4_nonwinner_penalty (g : Game) (dupIds winners : List Int)
    (zeroCase dupsExist special : Bool) :
    (zeroCase = true →
      genericStep g dupIds winners zeroCase dupsExist special = g) ∧
    (∀ uid p, g.findPlayer uid = some p →
      (genericStep g dupIds winners zeroCase dupsExist special).findPlayer uid =
        some (if zeroCase = false ∧ p.eliminated = false ∧ uid ∉ dupIds ∧
            uid ∉ winners ∧ p.timeout_penalty_applied = false ∧
            dupsExist = false ∧ special = false
          then p.penalize 1 else p)) ∧
    (∀ (r : RegState) (o : EngineOp),
      (∀ gid g0 p0, r.lookupGame gid = some g0 → p0 ∈ g0.players →
        p0.timeout_penalty_applied = false) →
      ∀ gid g0 p0, (applyOp r o).lookupGame gid = some g0 →
        p0 ∈ g0.players → p0.timeout_penalty_applied = false) := by
  refine ⟨?_, ?_, ?_⟩
  · intro hz
    unfold genericStep
    rw [hz]
    simp
  · intro uid p hp
    have hid : p.user_id = uid := by
      have := List.find?_some (by simpa [Game.findPlayer] using hp)
      simpa using this
    cases hz : zeroCase with
    | true =>
        unfold genericStep
        simp only [if_true]
        rw [hp]
        simp
    | false =>
        unfold genericStep
        simp only [Bool.false_eq_true, if_false]
        rw [Game.findPlayer_mapPlayers g uid _
          (fun q => by split <;> rfl), hp, Option.map_some']
        congr 1
        by_cases hC : p.eliminated = false ∧ uid ∉ dupIds ∧ uid ∉ winners ∧
            p.timeout_penalty_applied = false ∧ dupsExist = false ∧
            special = false
    -- both sides rewritten by the decided condition
        · obtain ⟨h1, h2, h3, h4, h5, h6⟩ := hC
          rw [if_pos (by
            rw [hid]
            simp [h1, h4, h5, h6, List.elem_eq_mem, h2, h3])]
          rw [if_pos (by
            refine ⟨?_, h1, h2, h3, h4, h5, h6⟩
            simp)]
        · rw [if_neg (by
            rw [hid]
            intro hb
            apply hC
            simp only [Bool.and_eq_true, Bool.not_eq_true'] at hb
            refine ⟨hb.1.1.1.1.1, ?_, ?_, hb.1.1.2, hb.1.2, hb.2⟩
            · have := hb.1.1.1.1.2
              simpa [List.elem_eq_mem] using this
            · have := hb.1.1.1.2
              simpa [List.elem_eq_mem] using this)]
          rw [if_neg (by
            intro hb
            exact hC ⟨hb.2.1, hb.2.2.1, hb.2.2.2.1, hb.2.2.2.2.1,
              hb.2.2.2.2.2.1, hb.2.2.2.2.2.2⟩)]
  · intro r o hclear gid g0 p0 hg0 hp0
    rcases regEvolves_applyOp r o gid g0 hg0 with hfresh | ⟨g1, hg1, hev⟩
    · exact (hfresh p0 hp0).2
    · rcases hev p0 hp0 with hfresh | ⟨p1, hp1, _, _, hflag⟩
      · exact hfresh.2
      · exact hflag.trans (hclear gid g1 p1 hg1 hp1)

/-- A one-player game for the C4 witness. -/
def c4wGame : Game := { Game.init 50 with players := [Player.init 9] }

/-- Witness for the amended C4 theorem: in the 0-vs-100 case the step
is skipped; otherwise a lone non-winner takes the characterized −1;
and the guard flag stays clear across an engine operation. -/
theorem C4_nonwinner_penalty_witness :
    (genericStep c4wGame [] [7] true false false = c4wGame) ∧
    ((genericStep c4wGame [] [7] false false false).findPlayer 9 =
      some (if false = false ∧ (Player.init 9).eliminated = false ∧
          (9 : Int) ∉ ([] : List Int) ∧ (9 : Int) ∉ ([7] : List Int) ∧
          (Player.init 9).timeout_penalty_applied = false ∧
          false = false ∧ false = false
        then (Player.init 9).penalize 1 else Player.init 9)) ∧
    (∀ gid g0 p0,
      (applyOp { active_games := [], user_active_game := [] }
        (EngineOp.start 50)).lookupGame gid = some g0 →
      p0 ∈ g0.players → p0.timeout_penalty_applied = false) :=
  ⟨(C4_nonwinner_penalty c4wGame [] [7] true false false).1 rfl,
   (C4_nonwinner_penalty c4wGame [] [7] false false false).2.1 9
      (Player.init 9) (by decide),
   (C4_nonwinner_penalty c4wGame [] [7] false false false).2.2
      { active_games := [], user_active_game := [] } (EngineOp.start 50)
      (by intro gid g0 p0 hg hp; simp [RegState.lookupGame] at hg)⟩

/-- The registry before any match was created. -/
def emptyReg : RegState := { active_games := [], user_active_game := [] }

/-- Run a sequence of engine operations from the empty registry. -/
def iterOps (ops : List EngineOp) : RegState := ops.foldl applyOp emptyReg

/-- Claim C10: no engine operation increases a player's cumulative
score — every player after an operation is fresh at a non-positive
score or descends from a same-id player with no greater score; hence
along any operation sequence from the empty registry all scores stay
≤ 0; and for a scoreboard of non-positive scores with a survivor, the
champion computed by `end_game` is a non-eliminated player whose score
is closest to zero among the non-eliminated. -/
theorem C10_scores_never_increase :
    (∀ (r : RegState) (o : EngineOp) (gid : Int) (g' : Game) (p' : Player),
      (applyOp r o).lookupGame gid = some g' → p' ∈ g'.players →
      p'.score ≤ 0 ∨ ∃ g p, r.lookupGame gid = some g ∧ p ∈ g.players ∧
        p.user_id = p'.user_id ∧ p'.score ≤ p.score) ∧
    (∀ (ops : List EngineOp) (gid : Int) (g : Game) (p : Player),
      (iterOps ops).lookupGame gid = some g → p ∈ g.players →
      p.score ≤ 0) ∧
    (∀ g : Game, (∀ p ∈ g.players, p.score ≤ 0) →
      (∃ p ∈ g.players, p.eliminated = false) →
      ∃ w, champion g = some w ∧ w.eliminated = false ∧ w ∈ g.players ∧
        ∀ p ∈ g.players, p.eliminated = false → |w.score| ≤ |p.score|) := by
  have part1 : ∀ (r : RegState) (o : EngineOp) (gid : Int) (g' : Game)
      (p' : Player),
      (applyOp r o).lookupGame gid = some g' → p' ∈ g'.players →
      p'.score ≤ 0 ∨ ∃ g p, r.lookupGame gid = some g ∧ p ∈ g.players ∧
        p.user_id = p'.user_id ∧ p'.score ≤ p.score := by
    intro r o gid g' p' hg' hp'
    rcases regEvolves_applyOp r o gid g' hg' with hfresh | ⟨g, hg, hev⟩
    · exact Or.inl (hfresh p' hp').1
    · rcases hev p' hp' with hfresh | ⟨p, hp, hid, hle, -⟩
      · exact Or.inl hfresh.1
      · exact Or.inr ⟨g, p, hg, hp, hid, hle⟩
  refine ⟨part1, ?_, ?_⟩
  · have step : ∀ (r : RegState) (o : EngineOp),
        (∀ gid g p, r.lookupGame gid = some g → p ∈ g.players →
          p.score ≤ 0) →
        (∀ gid g p, (applyOp r o).lookupGame gid = some g →
          p ∈ g.players → p.score ≤ 0) := by
      intro r o hinv gid g p hg hp
      rcases part1 r o gid g p hg hp with h | ⟨g0, p0, hg0, hp0, -, hle⟩
      · exact h
      · exact hle.trans (hinv gid g0 p0 hg0 hp0)
    have fold : ∀ (ops : List EngineOp) (r : RegState),
        (∀ gid g p, r.lookupGame gid = some g → p ∈ g.players →
          p.score ≤ 0) →
        (∀ gid g p, (ops.foldl applyOp r).lookupGame gid = some g →
          p ∈ g.players → p.score ≤ 0) := by
      intro ops
      induction ops with
      | nil => intro r h; exact h
      | cons o os ih =>
          intro r h
          exact ih (applyOp r o) (step r o h)
    intro ops gid g p hg hp
    refine fold ops emptyReg ?_ gid g p hg hp
    intro gid g p hg hp
    simp [emptyReg, RegState.lookupGame] at hg
  · intro g hnonpos hsurv
    obtain ⟨q, hq, hqalive⟩ := hsurv
    have hperm : List.Perm (g.players.mergeSort
        (fun a b => decide (b.score ≤ a.score))) g.players :=
      List.mergeSort_perm g.players _
    have hpair : (g.players.mergeSort
        (fun a b => decide (b.score ≤ a.score))).Pairwise
        (fun a b => decide (b.score ≤ a.score)) := by
      refine List.sorted_mergeSort ?_ ?_ g.players
      · intro a b c h1 h2
        simp only [decide_eq_true_eq] at h1 h2 ⊢
        omega
      · intro a b
        simp only [Bool.or_eq_true, decide_eq_true_eq]
        omega
    have hqmem : q ∈ g.players.mergeSort
        (fun a b => decide (b.score ≤ a.score)) := hperm.mem_iff.mpr hq
    have hqfl : q ∈ (g.players.mergeSort
        (fun a b => decide (b.score ≤ a.score))).filter
        (fun p => !p.eliminated) :=
      List.mem_filter.mpr ⟨hqmem, by simp [hqalive]⟩
    obtain ⟨w, rest, hfl⟩ :=
      List.exists_cons_of_ne_nil (List.ne_nil_of_mem hqfl)
    have hwin : champion g = some w := by
      unfold champion playersSorted
      dsimp only
      rw [hfl]
    have hwfl : w ∈ (g.players.mergeSort
        (fun a b => decide (b.score ≤ a.score))).filter
        (fun p => !p.eliminated) := by
      rw [hfl]; exact List.mem_cons_self _ _
    have hwmem : w ∈ g.players :=
      hperm.mem_iff.mp (List.mem_filter.mp hwfl).1
    have hwalive : w.eliminated = false := by
      have := (List.mem_filter.mp hwfl).2
      simpa using this
    refine ⟨w, hwin, hwalive, hwmem, ?_⟩
    intro p hp hpalive
    have hpfl : p ∈ (g.players.mergeSort
        (fun a b => decide (b.score ≤ a.score))).filter
        (fun pl => !pl.eliminated) :=
      List.mem_filter.mpr ⟨hperm.mem_iff.mpr hp, by simp [hpalive]⟩
    rw [hfl] at hpfl
    have hple : p.score ≤ w.score := by
      rcases List.mem_cons.mp hpfl with rfl | hrest
      · exact le_refl _
      · have hpairf := hpair.filter (fun pl => !pl.eliminated)
        rw [hfl] at hpairf
        have := (List.pairwise_cons.mp hpairf).1 p hrest
        simpa using this
    rw [abs_of_nonpos (hnonpos w hwmem), abs_of_nonpos (hnonpos p hp)]
    omega

/-- A finished-round scoreboard: one eliminated player at −5 and two
survivors at −3 and −4. -/
def c10wGame : Game :=
  { Game.init 60 with players :=
      [{ Player.init 1 with score := -5, eliminated := true },
       { Player.init 2 with score := -3 },
       { Player.init 3 with score := -4 }] }

/-- Witness for C10 at concrete inputs: a join-then-miss operation
sequence leaves every score non-positive, and the champion of a
concrete mixed scoreboard is the alive player closest to zero. -/
theorem C10_scores_never_increase_witness :
    (∀ gid g p,
      (iterOps [EngineOp.create 3, EngineOp.addP 3 1, EngineOp.addP 3 2,
        EngineOp.start 3, EngineOp.miss 3 1]).lookupGame gid = some g →
      p ∈ g.players → p.score ≤ 0) ∧
    (∃ w, champion c10wGame = some w ∧ w.eliminated = false ∧
      w ∈ c10wGame.players ∧
      ∀ p ∈ c10wGame.players, p.eliminated = false →
        |w.score| ≤ |p.score|) :=
  ⟨fun gid g p hg hp =>
      (C10_scores_never_increase).2.1
        [EngineOp.create 3, EngineOp.addP 3 1, EngineOp.addP 3 2,
          EngineOp.start 3, EngineOp.miss 3 1] gid g p hg hp,
   (C10_scores_never_increase).2.2 c10wGame (by decide)
      ⟨{ Player.init 2 with score := -3 }, by decide, rfl⟩⟩

theorem Game.findPlayer_congr (g1 g2 : Game) (uid : Int)
    (h : g1.players = g2.players) : g1.findPlayer uid = g2.findPlayer uid := by
  unfold Game.findPlayer
  rw [h]

theorem Game.activePlayers_congr (g1 g2 : Game)
    (h : g1.players = g2.players) : g1.activePlayers = g2.activePlayers := by
  unfold Game.activePlayers
  rw [h]

theorem map_id_of_forall {α : Type} (l : List α) (f : α → α)
    (h : ∀ a ∈ l, f a = a) : l.map f = l := by
  induction l with
  | nil => rfl
  | cons x xs ih =>
      rw [List.map_cons, h x (List.mem_cons_self _ _),
        ih (fun a ha => h a (List.mem_cons_of_mem _ ha))]

/-- With distinct ids, `players.get(uid)` returns the member itself. -/
theorem find?_eq_of_mem_nodup (l : List Player) (p : Player)
    (hnd : (l.map Player.user_id).Nodup) (hp : p ∈ l) :
    l.find? (fun q => q.user_id == p.user_id) = some p := by
  induction l with
  | nil => cases hp
  | cons x xs ih =>
      rw [List.map_cons, List.nodup_cons] at hnd
      rcases List.mem_cons.mp hp with rfl | hp'
      · simp [List.find?_cons]
      · have hx : ¬(x.user_id == p.user_id) = true := by
          intro he
          exact hnd.1 (by
            rw [show x.user_id = p.user_id from by simpa using he]
            exact List.mem_map_of_mem _ hp')
        have hx' : (x.user_id == p.user_id) = false := by simpa using hx
        rw [List.find?_cons, hx']
        exact ih hnd.2 hp'

theorem find?_map_pres (l : List Player) (f : Player → Player) (uid : Int)
    (hf : ∀ p, (f p).user_id = p.user_id) :
    (l.map f).find? (fun q => q.user_id == uid) =
      (l.find? (fun q => q.user_id == uid)).map f := by
  rw [List.find?_map]
  have hfun : ((fun q : Player => q.user_id == uid) ∘ f) =
      (fun q : Player => q.user_id == uid) := by
    funext p
    simp [Function.comp, hf]
  rw [hfun]

/-- The per-player mutation of the 0-vs-100 block (core.py 275-277),
specialised to an empty duplicate-penalty list: definitionally equal to
the lambda inside `zeroHundredStep` at `dupIds = []`, factored out so
the proofs below can name it compactly. -/
def zhPenalty (uid : Int) : Player → Player := fun p =>
  if !p.eliminated && !(p.user_id == uid) && !(([] : List Int).contains p.user_id)
  then p.penalize 1 else p

/-- When nobody alive sits at or below −10, the elimination pass of
core.py 309-316 changes nothing and reports nobody. -/
theorem elimStep_noop (gx : Game) (ne : Nat)
    (h : ∀ q ∈ gx.players, (!q.eliminated && decide (q.score ≤ -10)) = false) :
    elimStep gx ne = (gx, []) := by
  have hfil : gx.players.filter (fun p => !p.eliminated && decide (p.score ≤ -10)) = [] :=
    List.filter_eq_nil_iff.mpr (fun a ha => by rw [h a ha]; exact Bool.false_ne_true)
  have hmap : gx.players.map (fun p =>
      if !p.eliminated && decide (p.score ≤ -10)
      then { p with eliminated := true } else p) = gx.players :=
    map_id_of_forall _ _ (fun q hq => by
      rw [if_neg (by rw [h q hq]; exact Bool.false_ne_true)])
  unfold elimStep
  rw [hfil, hmap]
  rw [if_neg (by simp)]
  rfl

/-- Backbone for the 0-vs-100 claim: with exactly two alive players
whose picks are 0 and 100, round resolution reports the 100-picker as
the sole winner, and (when neither player crosses the elimination
threshold) the 0-picker ends exactly one point down while the
100-picker's score is untouched. -/
theorem zeroHundred_core (r : RegState) (gid : Int) (g : Game)
    (p0 p100 : Player)
    (hg : r.lookupGame gid = some g)
    (hsent : g.round_results_sent = false)
    (hnodup : (g.players.map Player.user_id).Nodup)
    (hlen : g.activePlayers.length = 2)
    (hany0 : g.activePlayers.any
      (fun p => p.current_number == Pick.picked 0) = true)
    (hany100 : g.activePlayers.any
      (fun p => p.current_number == Pick.picked 100) = true)
    (hfind : g.activePlayers.find?
      (fun p => p.current_number == Pick.picked 100) = some p100)
    (hp0mem : p0 ∈ g.activePlayers)
    (hp100mem : p100 ∈ g.activePlayers)
    (hp0pick : p0.current_number = Pick.picked 0)
    (hne : p0.user_id ≠ p100.user_id)
    (haliveonly : ∀ p ∈ g.players, p.eliminated = false → p = p0 ∨ p = p100) :
    (∃ s, (processRoundResults r gid).2 = some s ∧
      s.winners = [p100.user_id]) ∧
    (-9 < p0.score → -10 < p100.score →
      ∃ gf q0 q100,
        (processRoundResults r gid).1.lookupGame gid = some gf ∧
        gf.findPlayer p100.user_id = some q100 ∧
        q100.score = p100.score ∧ q100.eliminated = false ∧
        gf.findPlayer p0.user_id = some q0 ∧
        q0.score = p0.score - 1 ∧ q0.eliminated = false) := by
  have hp0mem' : p0 ∈ g.players := (List.mem_filter.mp hp0mem).1
  have hp100mem' : p100 ∈ g.players := (List.mem_filter.mp hp100mem).1
  have hp0alive : p0.eliminated = false := by
    have := (List.mem_filter.mp hp0mem).2
    simpa using this
  have hp100alive : p100.eliminated = false := by
    have := (List.mem_filter.mp hp100mem).2
    simpa using this
  have hp100pick : p100.current_number = Pick.picked 100 := by
    have := List.find?_some hfind
    simpa using this
  have hSactive :
      Game.activePlayers { g with round_results_sent := true } =
        g.activePlayers := Game.activePlayers_congr _ _ rfl
  have hpickmem : (p100.user_id, (100 : Int)) ∈
      Game.picksOf { g with round_results_sent := true } := by
    unfold Game.picksOf
    rw [hSactive]
    exact List.mem_filterMap.mpr ⟨p100, hp100mem, by rw [hp100pick]⟩
  have hpickempty :
      (Game.picksOf { g with round_results_sent := true }).isEmpty = false := by
    cases hl : Game.picksOf { g with round_results_sent := true } with
    | nil => exact absurd hl (List.ne_nil_of_mem hpickmem)
    | cons x xs => rfl
  have hsdgplayers :
      (scheduleDuplicate { g with round_results_sent := true }
        (Game.picksOf { g with round_results_sent := true })).players =
        g.players := by
    rw [scheduleDuplicate_players]
  have hsdgactive :
      (scheduleDuplicate { g with round_results_sent := true }
        (Game.picksOf { g with round_results_sent := true })).activePlayers =
        g.activePlayers := Game.activePlayers_congr _ _ hsdgplayers
  have hdup : dupStep
      (scheduleDuplicate { g with round_results_sent := true }
        (Game.picksOf { g with round_results_sent := true }))
      (Game.picksOf { g with round_results_sent := true }) =
      (scheduleDuplicate { g with round_results_sent := true }
        (Game.picksOf { g with round_results_sent := true }), [], false) := by
    unfold dupStep
    rw [if_neg (by
      rintro ⟨h2, -⟩
      rw [hsdgactive, hlen] at h2
      exact lt_irrefl 2 h2)]
  have hzero : ∀ w0 : List Int,
      zeroHundredStep
        (scheduleDuplicate { g with round_results_sent := true }
          (Game.picksOf { g with round_results_sent := true })) [] w0 =
      ({ scheduleDuplicate { g with round_results_sent := true }
            (Game.picksOf { g with round_results_sent := true }) with
          players :=
            (scheduleDuplicate { g with round_results_sent := true }
              (Game.picksOf { g with round_results_sent := true })).players.map
              (zhPenalty p100.user_id) },
        [p100.user_id], true) := by
    intro w0
    unfold zeroHundredStep
    dsimp only
    rw [if_pos ⟨by rw [hsdgactive]; exact hlen,
      by rw [hsdgactive]; exact hany0, by rw [hsdgactive]; exact hany100⟩]
    rw [show (scheduleDuplicate { g with round_results_sent := true }
        (Game.picksOf { g with round_results_sent := true })).activePlayers.find?
        (fun p => p.current_number == Pick.picked 100) = some p100 from by
      rw [hsdgactive]; exact hfind]
    rfl
  have hspec : ∀ (gx : Game) (w : List Int) (numElim : Nat) (rt : Int),
      specialStep gx [] w true false numElim rt = (gx, w, false) := by
    intro gx w numElim rt
    unfold specialStep
    rw [if_neg (by rintro ⟨-, h, -⟩; cases h)]
  have hgen : ∀ (gx : Game) (w : List Int) (d s : Bool),
      genericStep gx [] w true d s = gx := by
    intro gx w d s
    unfold genericStep
    rw [if_pos rfl]
  unfold processRoundResults
  rw [hg]
  dsimp only
  rw [if_neg (by rw [hsent]; exact Bool.false_ne_true)]
  rw [if_neg (by rw [hpickempty]; exact Bool.false_ne_true)]
  rw [hdup]
  dsimp only
  rw [hzero]
  dsimp only
  rw [hspec]
  dsimp only
  rw [hgen]
  refine ⟨?_, ?_⟩
  · split <;> exact ⟨_, rfl, rfl⟩
  · intro hs0 hs100
    have hf2elim : ∀ p : Player,
        (zhPenalty p100.user_id p).eliminated = p.eliminated := by
      intro p
      unfold zhPenalty
      split <;> rfl
    have hf2uid : ∀ p : Player,
        (zhPenalty p100.user_id p).user_id = p.user_id := by
      intro p
      unfold zhPenalty
      split <;> rfl
    have hzp0 : zhPenalty p100.user_id p0 = p0.penalize 1 := by
      unfold zhPenalty
      rw [if_pos (by simp [hp0alive, hne])]
    have hzp100 : zhPenalty p100.user_id p100 = p100 := by
      unfold zhPenalty
      rw [if_neg (by simp)]
    have hf2score : ∀ p ∈ g.players, p.eliminated = false →
        -10 < (zhPenalty p100.user_id p).score := by
      intro p hpmem hpal
      rcases haliveonly p hpmem hpal with h | h
      · rw [h, hzp0]
        show -10 < p0.score - 1
        omega
      · rw [h, hzp100]
        exact hs100
    have hnoelim : ∀ q ∈ g.players.map (zhPenalty p100.user_id),
        (!q.eliminated && decide (q.score ≤ -10)) = false := by
      intro q hq
      obtain ⟨p, hpmem, rfl⟩ := List.mem_map.mp hq
      by_cases hpe : p.eliminated = true
      · rw [hf2elim p, hpe]
        simp
      · have hpal : p.eliminated = false := by simpa using hpe
        have hsc := hf2score p hpmem hpal
        rw [hf2elim p, hpal]
        simp only [Bool.not_false, Bool.true_and, decide_eq_false_iff_not]
        omega
    revert hsdgplayers
    generalize scheduleDuplicate { g with round_results_sent := true }
        (Game.picksOf { g with round_results_sent := true }) = SD
    intro hsdgplayers
    rw [hsdgplayers]
    have helim : ∀ ne : Nat,
        elimStep { SD with players := g.players.map (zhPenalty p100.user_id) } ne =
          ({ SD with players := g.players.map (zhPenalty p100.user_id) }, []) :=
      fun ne => elimStep_noop _ ne hnoelim
    rw [helim]
    dsimp only
    have hbigactive :
        (Game.activePlayers
          { SD with players := g.players.map (zhPenalty p100.user_id) }).length = 2 := by
      unfold Game.activePlayers
      dsimp only
      rw [List.filter_map, List.length_map]
      have hcong : g.players.filter ((fun p => !p.eliminated) ∘ zhPenalty p100.user_id) =
          g.players.filter (fun p => !p.eliminated) :=
        List.filter_congr (fun p _ => by
          simp only [Function.comp_apply]
          rw [hf2elim p])
      rw [hcong]
      exact hlen
    rw [if_neg (by rw [hbigactive]; decide)]
    dsimp only
    refine ⟨_, { p0.penalize 1 with current_number := Pick.unset },
      { p100 with current_number := Pick.unset },
      RegState.lookupGame_updateGame_self r gid _ g hg,
      ?_, ?_, ?_, ?_, ?_, ?_⟩
    · show ((g.players.map (zhPenalty p100.user_id)).map
          (fun p : Player => { p with current_number := Pick.unset })).find?
          (fun p : Player => p.user_id == p100.user_id) =
          some { p100 with current_number := Pick.unset }
      rw [find?_map_pres (g.players.map (zhPenalty p100.user_id))
          (fun p => { p with current_number := Pick.unset }) p100.user_id (fun p => rfl)]
      rw [find?_map_pres g.players (zhPenalty p100.user_id) p100.user_id hf2uid]
      rw [find?_eq_of_mem_nodup g.players p100 hnodup hp100mem']
      rw [Option.map_some', hzp100, Option.map_some']
    · rfl
    · exact hp100alive
    · show ((g.players.map (zhPenalty p100.user_id)).map
          (fun p : Player => { p with current_number := Pick.unset })).find?
          (fun p : Player => p.user_id == p0.user_id) =
          some { p0.penalize 1 with current_number := Pick.unset }
      rw [find?_map_pres (g.players.map (zhPenalty p100.user_id))
          (fun p => { p with current_number := Pick.unset }) p0.user_id (fun p => rfl)]
      rw [find?_map_pres g.players (zhPenalty p100.user_id) p0.user_id hf2uid]
      rw [find?_eq_of_mem_nodup g.players p0 hnodup hp0mem']
      rw [Option.map_some', hzp0, Option.map_some']
    · rfl
    · exact hp0alive

/-- C7: when exactly two active players remain and their picks are 0 and
100 (in either order), round resolution reports the 100-picker as the
sole winner regardless of any distance to the target, and — as long as
neither player sits at the elimination threshold — the 0-picker ends the
round exactly one point down (the −1 of the 0-vs-100 case; with two
alive the duplicate rule cannot have penalized anyone) while the
100-picker's score is untouched, so the generic non-winner penalty was
applied to neither player. -/
theorem C7_zero_vs_hundred (r : RegState) (gid : Int) (g : Game) (a b : Player)
    (hg : r.lookupGame gid = some g)
    (hsent : g.round_results_sent = false)
    (hnodup : (g.players.map Player.user_id).Nodup)
    (hactive : g.activePlayers = [a, b])
    (hpicks : a.current_number = Pick.picked 0 ∧ b.current_number = Pick.picked 100 ∨
      a.current_number = Pick.picked 100 ∧ b.current_number = Pick.picked 0)
    (hs : -9 < a.score ∧ -9 < b.score) :
    ∃ p0 p100 : Player,
      (p0 = a ∧ p100 = b ∨ p0 = b ∧ p100 = a) ∧
      p0.current_number = Pick.picked 0 ∧
      p100.current_number = Pick.picked 100 ∧
      (∃ s, (processRoundResults r gid).2 = some s ∧ s.winners = [p100.user_id]) ∧
      ∃ gf q0 q100,
        (processRoundResults r gid).1.lookupGame gid = some gf ∧
        gf.findPlayer p100.user_id = some q100 ∧
        q100.score = p100.score ∧ q100.eliminated = false ∧
        gf.findPlayer p0.user_id = some q0 ∧
        q0.score = p0.score - 1 ∧ q0.eliminated = false := by
  have hamem : a ∈ g.activePlayers := by
    rw [hactive]; exact List.mem_cons_self _ _
  have hbmem : b ∈ g.activePlayers := by
    rw [hactive]; exact List.mem_cons_of_mem _ (List.mem_cons_self _ _)
  have hamem' : a ∈ g.players := (List.mem_filter.mp hamem).1
  have hbmem' : b ∈ g.players := (List.mem_filter.mp hbmem).1
  have hlen : g.activePlayers.length = 2 := by rw [hactive]; rfl
  have haliveonly : ∀ p ∈ g.players, p.eliminated = false → p = a ∨ p = b := by
    intro p hp hpal
    have hpm : p ∈ g.activePlayers := List.mem_filter.mpr ⟨hp, by rw [hpal]; rfl⟩
    rw [hactive] at hpm
    simpa using hpm
  have hneab : a.user_id ≠ b.user_id := by
    intro he
    have hab : a = b := List.inj_on_of_nodup_map hnodup hamem' hbmem' he
    rcases hpicks with ⟨h1, h2⟩ | ⟨h1, h2⟩
    · rw [hab, h2] at h1
      exact absurd h1 (by decide)
    · rw [hab, h2] at h1
      exact absurd h1 (by decide)
  rcases hpicks with ⟨ha0, hb100⟩ | ⟨ha100, hb0⟩
  · have hany0 : (g.activePlayers.any
        fun p => p.current_number == Pick.picked 0) = true := by
      rw [hactive]
      simp [ha0]
    have hany100 : (g.activePlayers.any
        fun p => p.current_number == Pick.picked 100) = true := by
      rw [hactive]
      simp [hb100]
    have hfind : g.activePlayers.find?
        (fun p => p.current_number == Pick.picked 100) = some b := by
      rw [hactive]
      rw [List.find?_cons_of_neg _ (by simp [ha0])]
      rw [List.find?_cons_of_pos _ (by simp [hb100])]
    obtain ⟨hw, hrest⟩ := zeroHundred_core r gid g a b hg hsent hnodup hlen
      hany0 hany100 hfind hamem hbmem ha0 hneab haliveonly
    exact ⟨a, b, Or.inl ⟨rfl, rfl⟩, ha0, hb100, hw,
      hrest hs.1 (by obtain ⟨h1, h2⟩ := hs; omega)⟩
  · have hany0 : (g.activePlayers.any
        fun p => p.current_number == Pick.picked 0) = true := by
      rw [hactive]
      simp [hb0]
    have hany100 : (g.activePlayers.any
        fun p => p.current_number == Pick.picked 100) = true := by
      rw [hactive]
      simp [ha100]
    have hfind : g.activePlayers.find?
        (fun p => p.current_number == Pick.picked 100) = some a := by
      rw [hactive]
      rw [List.find?_cons_of_pos _ (by simp [ha100])]
    obtain ⟨hw, hrest⟩ := zeroHundred_core r gid g b a hg hsent hnodup hlen
      hany0 hany100 hfind hbmem hamem hb0 (Ne.symm hneab)
      (fun p hp hal => (haliveonly p hp hal).symm)
    exact ⟨b, a, Or.inr ⟨rfl, rfl⟩, hb0, ha100, hw,
      hrest (by obtain ⟨h1, h2⟩ := hs; omega) (by obtain ⟨h1, h2⟩ := hs; omega)⟩

/-- Witness match for C7: group 70, player 1 picked 0 at score −3,
player 2 picked 100 at score −5. -/
def c7P0 : Player :=
  { Player.init 1 with current_number := Pick.picked 0, score := -3 }

def c7P100 : Player :=
  { Player.init 2 with current_number := Pick.picked 100, score := -5 }

def c7Game : Game :=
  { Game.init 70 with players := [c7P0, c7P100], current_round_active := true }

def c7Reg : RegState :=
  { active_games := [(70, c7Game)], user_active_game := [(1, 70), (2, 70)] }

/-- C7 witness: the theorem evaluated on the concrete two-player match. -/
theorem C7_zero_vs_hundred_witness :
    ∃ p0 p100 : Player,
      (p0 = c7P0 ∧ p100 = c7P100 ∨ p0 = c7P100 ∧ p100 = c7P0) ∧
      p0.current_number = Pick.picked 0 ∧
      p100.current_number = Pick.picked 100 ∧
      (∃ s, (processRoundResults c7Reg 70).2 = some s ∧ s.winners = [p100.user_id]) ∧
      ∃ gf q0 q100,
        (processRoundResults c7Reg 70).1.lookupGame 70 = some gf ∧
        gf.findPlayer p100.user_id = some q100 ∧
        q100.score = p100.score ∧ q100.eliminated = false ∧
        gf.findPlayer p0.user_id = some q0 ∧
        q0.score = p0.score - 1 ∧ q0.eliminated = false :=
  C7_zero_vs_hundred c7Reg 70 c7Game c7P0 c7P100 rfl rfl (by decide) rfl
    (Or.inl ⟨rfl, rfl⟩) (by decide)

/-- Whatever game `end_game` leaves registered under `gid` was already
marked ended: the normal path deletes the registry entry outright. -/
theorem endGame_lookup_ended (r' : RegState) (gid : Int) (gf : Game)
    (h : (endGame r' gid).lookupGame gid = some gf) : gf.ended = true := by
  unfold endGame at h
  cases hl : r'.lookupGame gid with
  | none =>
      rw [hl] at h
      dsimp only at h
      rw [hl] at h
      cases h
  | some g1 =>
      rw [hl] at h
      dsimp only at h
      by_cases he : g1.ended = true
      · rw [if_pos he] at h
        rw [hl] at h
        obtain rfl := Option.some.inj h
        exact he
      · rw [if_neg he] at h
        rw [RegState.lookupGame_removeGame_self] at h
        cases h

/-- Nobody alive leaves the elimination pass of core.py 309-316 with a
score at or below −10. -/
theorem elimStep_no_survivor (gx : Game) (ne : Nat) :
    ∀ q ∈ (elimStep gx ne).1.players, q.eliminated = false → -10 < q.score := by
  intro q hq hqal
  have h1p : (elimStep gx ne).1.players = gx.players.map (fun p =>
      if !p.eliminated && decide (p.score ≤ -10)
      then { p with eliminated := true } else p) := by
    unfold elimStep
    dsimp only
    split <;> rfl
  rw [h1p] at hq
  obtain ⟨p, hp, rfl⟩ := List.mem_map.mp hq
  by_cases hc : (!p.eliminated && decide (p.score ≤ -10)) = true
  · have he : (if !p.eliminated && decide (p.score ≤ -10)
        then { p with eliminated := true } else p) =
        ({ p with eliminated := true } : Player) := by
      rw [if_pos hc]
    rw [he] at hqal
    simp at hqal
  · have hfp : (if !p.eliminated && decide (p.score ≤ -10)
        then { p with eliminated := true } else p) = p := by
      rw [if_neg hc]
    rw [hfp] at hqal ⊢
    have hc' : (!p.eliminated && decide (p.score ≤ -10)) = false := by
      simpa using hc
    rw [hqal] at hc'
    simp only [Bool.not_false, Bool.true_and, decide_eq_false_iff_not] at hc'
    omega

/-- C8: the elimination pass (core.py 309-316).  Every still-alive
player at score ≤ −10 is flipped to eliminated in this very pass —
identity and score intact — and reported in `eliminated_now`; nobody
leaves the pass alive at ≤ −10, and in particular after a full round
resolution (here: under the same guards `process_round_results` itself
runs under) no still-registered, un-ended game holds an alive player at
or below −10, so elimination is applied in the round the threshold is
crossed, never deferred; and the pass flags the duplicate rule for the
next round when it produced the match's first elimination
(`num_eliminated == 0` before the pass), leaving the flag untouched
when it eliminated nobody. -/
theorem C8_elimination_check (r : RegState) (gid : Int) (g : Game) (ne : Nat)
    (hg : r.lookupGame gid = some g)
    (hsent : g.round_results_sent = false) :
    (∀ p ∈ g.players, p.eliminated = false → p.score ≤ -10 →
      (∃ q ∈ (elimStep g ne).1.players,
        q.user_id = p.user_id ∧ q.score = p.score ∧ q.eliminated = true) ∧
      p.user_id ∈ (elimStep g ne).2) ∧
    (∀ q ∈ (elimStep g ne).1.players, q.eliminated = false → -10 < q.score) ∧
    ((elimStep g ne).2 ≠ [] → ne = 0 →
      (elimStep g ne).1.next_round_duplicate_active = true) ∧
    ((elimStep g ne).2 = [] →
      (elimStep g ne).1.next_round_duplicate_active =
        g.next_round_duplicate_active) ∧
    (∀ gf, (processRoundResults r gid).1.lookupGame gid = some gf →
      gf.ended = false → ∀ p ∈ gf.players, p.eliminated = false → -10 < p.score) := by
  have h2 : (elimStep g ne).2 =
      (g.players.filter (fun p => !p.eliminated && decide (p.score ≤ -10))).map
        Player.user_id := by
    unfold elimStep
    dsimp only
    split <;> rfl
  have h1p : (elimStep g ne).1.players = g.players.map (fun p =>
      if !p.eliminated && decide (p.score ≤ -10)
      then { p with eliminated := true } else p) := by
    unfold elimStep
    dsimp only
    split <;> rfl
  refine ⟨?_, elimStep_no_survivor g ne, ?_, ?_, ?_⟩
  · intro p hp hal hsc
    have hcond : (!p.eliminated && decide (p.score ≤ -10)) = true := by
      rw [hal]
      simpa using hsc
    constructor
    · rw [h1p]
      have hfp : (fun p : Player => if !p.eliminated && decide (p.score ≤ -10)
          then { p with eliminated := true } else p) p =
          { p with eliminated := true } := by
        dsimp only
        rw [if_pos hcond]
      exact ⟨{ p with eliminated := true }, hfp ▸ List.mem_map_of_mem _ hp,
        rfl, rfl, rfl⟩
    · rw [h2]
      exact List.mem_map_of_mem _ (List.mem_filter.mpr ⟨hp, hcond⟩)
  · intro hnn hne0
    subst hne0
    rw [h2] at hnn
    have hnewly : ((g.players.filter
        (fun p => !p.eliminated && decide (p.score ≤ -10))).map
        Player.user_id).isEmpty = false := by
      cases hN : (g.players.filter
          (fun p => !p.eliminated && decide (p.score ≤ -10))).map Player.user_id with
      | nil => exact absurd hN hnn
      | cons x xs => rfl
    have hcond : (!((g.players.filter
        (fun p => !p.eliminated && decide (p.score ≤ -10))).map
        Player.user_id).isEmpty && (0 : Nat) == 0) = true := by
      rw [hnewly]
      rfl
    unfold elimStep
    dsimp only
    rw [if_pos hcond]
  · intro hnil
    rw [h2] at hnil
    have hcond : ¬((!((g.players.filter
        (fun p => !p.eliminated && decide (p.score ≤ -10))).map
        Player.user_id).isEmpty && ne == 0) = true) := by
      rw [hnil]
      simp
    unfold elimStep
    dsimp only
    rw [if_neg hcond]
  · intro gf hgf hgfend p hp hal
    unfold processRoundResults at hgf
    rw [hg] at hgf
    dsimp only at hgf
    rw [if_neg (by rw [hsent]; exact Bool.false_ne_true)] at hgf
    by_cases hpk : (Game.picksOf { g with round_results_sent := true }).isEmpty = true
    · rw [if_pos hpk] at hgf
      dsimp only at hgf
      have hend := endGame_lookup_ended _ gid gf hgf
      rw [hgfend] at hend
      cases hend
    · rw [if_neg hpk] at hgf
      split at hgf
      · dsimp only at hgf
        have hend := endGame_lookup_ended _ gid gf hgf
        rw [hgfend] at hend
        cases hend
      · dsimp only at hgf
        rw [RegState.lookupGame_updateGame_self r gid _ g hg] at hgf
        obtain rfl := Option.some.inj hgf
        obtain ⟨q, hq, rfl⟩ := List.mem_map.mp hp
        exact elimStep_no_survivor _ _ q hq hal

/-- Witness match for C8: player 1 alive at −12, player 2 alive at −3,
no prior elimination. -/
def c8PA : Player := { Player.init 1 with score := -12 }

def c8PB : Player := { Player.init 2 with score := -3 }

def c8Game : Game := { Game.init 80 with players := [c8PA, c8PB] }

def c8Reg : RegState :=
  { active_games := [(80, c8Game)], user_active_game := [(1, 80), (2, 80)] }

/-- C8 witness: on the concrete match, player 1 (alive at −12) is
eliminated by the pass with identity and score intact, is reported in
`eliminated_now`, and — it being the match's first elimination — the
duplicate rule is flagged for the next round. -/
theorem C8_elimination_check_witness :
    ((∃ q ∈ (elimStep c8Game 0).1.players,
        q.user_id = c8PA.user_id ∧ q.score = c8PA.score ∧ q.eliminated = true) ∧
      c8PA.user_id ∈ (elimStep c8Game 0).2) ∧
    (elimStep c8Game 0).1.next_round_duplicate_active = true := by
  have h := C8_elimination_check c8Reg 80 c8Game 0 rfl rfl
  exact ⟨h.1 c8PA (by decide) rfl (by decide), h.2.2.1 (by decide) rfl⟩

/-- A player with a concrete numeric pick. -/
def pickedPlayer (uid n : Int) : Player :=
  { Player.init uid with current_number := .picked n }

/-- Five active players with the duplicate rule active: four pick 30,
one picks 50. -/
def c2Game : Game :=
  { Game.init 11 with
    duplicate_rule_active := true
    players := [pickedPlayer 1 30, pickedPlayer 2 30, pickedPlayer 3 30,
                pickedPlayer 4 30, pickedPlayer 5 50] }

/-- Witness for C2: with the rule active and 5 players alive, the four
30-pickers each take −1 and enter the duplicate set, the 50-picker is
untouched by the rule, and the ≥4-duplicates round flags the rule for
the next round. -/
theorem C2_duplicate_rule_witness :
    ((dupStep c2Game c2Game.picksOf).1.findPlayer 1 =
        some ((pickedPlayer 1 30).penalize 1) ∧
      1 ∈ (dupStep c2Game c2Game.picksOf).2.1) ∧
    (dupStep c2Game c2Game.picksOf).1.findPlayer 5 =
      some (pickedPlayer 5 50) ∧
    (scheduleDuplicate c2Game c2Game.picksOf).next_round_duplicate_active =
      true := by
  refine ⟨?_, ?_, ?_⟩
  · exact ((C2_duplicate_rule c2Game).2.1 (by decide) 1 (pickedPlayer 1 30)
      (by decide) rfl).1 ⟨30, rfl, by decide⟩
  · refine ((C2_duplicate_rule c2Game).2.1 (by decide) 5 (pickedPlayer 5 50)
      (by decide) rfl).2 ?_
    rintro ⟨n, hn, hc⟩
    have hn' : Pick.picked 50 = Pick.picked n := hn
    cases hn'
    exact absurd hc (by decide)
  · exact (C2_duplicate_rule c2Game).2.2.1 ⟨(1, 30), by decide, by decide⟩

/-- A pick field counts as "no pick yet" exactly when it is unset. -/
theorem Pick.isSet_eq_false_iff (c : Pick) : c.isSet = false ↔ c = .unset := by
  cases c <;> simp [Pick.isSet]

/-- Updating a game entry does not touch the user→group map. -/
theorem RegState.lookupUser_updateGame (r : RegState) (gid : Int) (g : Game)
    (uid : Int) : (r.updateGame gid g).lookupUser uid = r.lookupUser uid := rfl

/-- The spec-side acceptance condition for `submitPick` (§4.3): the
user's match has an active round, the user is a non-eliminated player
of it with no pick recorded this round, and the text is an integer in
[0, 100]. -/
def pickAccepted (r : RegState) (uid : Int) (text : List Char) : Prop :=
  ∃ gid g p, r.lookupUser uid = some gid ∧ r.lookupGame gid = some g ∧
    g.current_round_active = true ∧ isDigitString text = true ∧
    0 ≤ digitsToInt text ∧ digitsToInt text ≤ 100 ∧
    g.findPlayer uid = some p ∧ p.eliminated = false ∧
    p.current_number = Pick.unset

/-- Claim C5: `dm_pick_handler` accepts exactly under the spec's
conditions; every accepted value is the parsed digits; any rejection
leaves every match and every player untouched; and after an accepted
pick (with the round not yet complete) an immediate resubmission is
rejected as already-picked. -/
theorem C5_pick_validation (r : RegState) (uid : Int) (text : List Char) :
    ((dmPickHandler r uid text).2 = PickReply.accepted (digitsToInt text) ↔
      pickAccepted r uid text) ∧
    (∀ n, (dmPickHandler r uid text).2 = PickReply.accepted n →
      n = digitsToInt text) ∧
    ((∀ n, (dmPickHandler r uid text).2 ≠ PickReply.accepted n) →
      (dmPickHandler r uid text).1.active_games = r.active_games) ∧
    (∀ gid g p, r.lookupUser uid = some gid → r.lookupGame gid = some g →
      g.current_round_active = true → isDigitString text = true →
      0 ≤ digitsToInt text → digitsToInt text ≤ 100 →
      g.findPlayer uid = some p → p.eliminated = false →
      p.current_number = Pick.unset →
      ((g.updatePlayer uid (fun q =>
          { q with current_number := Pick.picked (digitsToInt text) })).players.all
        (fun pl => pl.current_number.isSet || pl.eliminated)) = false →
      (dmPickHandler (dmPickHandler r uid text).1 uid text).2 =
        PickReply.alreadyPicked) := by
  have haccept : ∀ (gid : Int) (g : Game) (p : Player),
      r.lookupUser uid = some gid → r.lookupGame gid = some g →
      g.current_round_active = true → isDigitString text = true →
      0 ≤ digitsToInt text → digitsToInt text ≤ 100 →
      g.findPlayer uid = some p → p.eliminated = false →
      p.current_number = Pick.unset →
      (dmPickHandler r uid text).2 = PickReply.accepted (digitsToInt text) := by
    intro gid g p hU hG hact hdig h0 h100 hF hel hunset
    unfold dmPickHandler
    simp only [hU, hG]
    simp [hact, hdig, h0, h100, hF, hel, hunset, Pick.isSet]
    split <;> rfl
  have tree : pickAccepted r uid text ∨
      ((dmPickHandler r uid text).1.active_games = r.active_games ∧
        ∀ n, (dmPickHandler r uid text).2 ≠ PickReply.accepted n) := by
    cases hU : r.lookupUser uid with
    | none =>
        refine Or.inr ⟨?_, ?_⟩ <;>
          · try intro n
            unfold dmPickHandler
            simp [hU]
    | some gid =>
      cases hG : r.lookupGame gid with
      | none =>
          refine Or.inr ⟨?_, ?_⟩ <;>
            · try intro n
              unfold dmPickHandler
              simp [hU, hG, RegState.unbindUser]
      | some g =>
        by_cases hact : g.current_round_active = true
        · by_cases hdig : isDigitString text = true
          · by_cases h0 : 0 ≤ digitsToInt text
            · by_cases h100 : digitsToInt text ≤ 100
              · cases hF : g.findPlayer uid with
                | none =>
                    refine Or.inr ⟨?_, ?_⟩ <;>
                      · try intro n
                        unfold dmPickHandler
                        simp [hU, hG, hact, hdig, h0, h100, hF]
                | some p =>
                    by_cases hel : p.eliminated = true
                    · refine Or.inr ⟨?_, ?_⟩ <;>
                        · try intro n
                          unfold dmPickHandler
                          simp [hU, hG, hact, hdig, h0, h100, hF, hel]
                    · by_cases hset : p.current_number = Pick.unset
                      · exact Or.inl ⟨gid, g, p, hU, hG, hact, hdig, h0,
                          h100, hF, by simpa using hel, hset⟩
                      · have hset' : p.current_number.isSet = true := by
                          cases hc : p.current_number with
                          | unset => exact absurd hc hset
                          | picked n => rfl
                          | skipped => rfl
                        refine Or.inr ⟨?_, ?_⟩ <;>
                          · try intro n
                            unfold dmPickHandler
                            simp [hU, hG, hact, hdig, h0, h100, hF, hel, hset']
              · refine Or.inr ⟨?_, ?_⟩ <;>
                  · try intro n
                    unfold dmPickHandler
                    simp [hU, hG, hact, hdig, h0, h100]
            · refine Or.inr ⟨?_, ?_⟩ <;>
                · try intro n
                  unfold dmPickHandler
                  simp [hU, hG, hact, hdig, h0]
          · have hdig' : isDigitString text = false := by simpa using hdig
            refine Or.inr ⟨?_, ?_⟩ <;>
              · try intro n
                unfold dmPickHandler
                simp [hU, hG, hact, hdig']
        · have hact' : g.current_round_active = false := by simpa using hact
          refine Or.inr ⟨?_, ?_⟩ <;>
            · try intro n
              unfold dmPickHandler
              simp [hU, hG, hact']
  refine ⟨⟨?_, ?_⟩, ?_, ?_, ?_⟩
  · intro hacc
    rcases tree with htrue | ⟨-, hno⟩
    · exact htrue
    · exact absurd hacc (hno _)
  · rintro ⟨gid, g, p, hU, hG, hact, hdig, h0, h100, hF, hel, hunset⟩
    exact haccept gid g p hU hG hact hdig h0 h100 hF hel hunset
  · intro n hacc
    rcases tree with ⟨gid, g, p, hU, hG, hact, hdig, h0, h100, hF, hel, hunset⟩
      | ⟨-, hno⟩
    · have := haccept gid g p hU hG hact hdig h0 h100 hF hel hunset
      rw [this] at hacc
      exact (PickReply.accepted.injEq _ _ ▸ congrArg id hacc : _) ▸ by
        cases hacc
        rfl
    · exact absurd hacc (hno n)
  · intro hno
    rcases tree with ⟨gid, g, p, hU, hG, hact, hdig, h0, h100, hF, hel, hunset⟩
      | ⟨hpres, -⟩
    · exact absurd (haccept gid g p hU hG hact hdig h0 h100 hF hel hunset)
        (hno _)
    · exact hpres
  · intro gid g p hU hG hact hdig h0 h100 hF hel hunset hnotall
    have hid : p.user_id = uid := by
      have := List.find?_some (by simpa [Game.findPlayer] using hF)
      simpa using this
    have hfirst : dmPickHandler r uid text =
        (r.updateGame gid (g.updatePlayer uid (fun q =>
          { q with current_number := Pick.picked (digitsToInt text) })),
          PickReply.accepted (digitsToInt text)) := by
      unfold dmPickHandler
      simp only [hU, hG]
      simp [hact, hdig, h0, h100, hF, hel, hunset, Pick.isSet]
      intro hall
      exfalso
      have hall' : ((g.updatePlayer uid (fun q =>
          { q with current_number := Pick.picked (digitsToInt text) })).players.all
          (fun pl => pl.current_number.isSet || pl.eliminated)) = true := by
        rw [List.all_eq_true]
        intro x hx
        rcases hall x hx with h1 | h2
        · cases hc : x.current_number with
          | unset => rw [hc] at h1; exact absurd h1 (by decide)
          | picked n => simp [Pick.isSet, hc]
          | skipped => simp [Pick.isSet, hc]
        · simp [h2]
      rw [hall'] at hnotall
      cases hnotall
    rw [hfirst]
    have hU2 : ((r.updateGame gid (g.updatePlayer uid (fun q =>
        { q with current_number := Pick.picked (digitsToInt text) }))).lookupUser
        uid) = some gid := by
      rw [RegState.lookupUser_updateGame]
      exact hU
    have hG2 := RegState.lookupGame_updateGame_self r gid
      (g.updatePlayer uid (fun q =>
        { q with current_number := Pick.picked (digitsToInt text) })) g hG
    have hF2 : (g.updatePlayer uid (fun q =>
        { q with current_number := Pick.picked (digitsToInt text) })).findPlayer
        uid = some { p with current_number := Pick.picked (digitsToInt text) } := by
      rw [Game.findPlayer_updatePlayer g uid
          (fun q => { q with current_number := Pick.picked (digitsToInt text) })
          (fun q => rfl), hF, Option.map_some']
      simp [hid]
    have hact2 : (g.updatePlayer uid (fun q =>
        { q with current_number := Pick.picked (digitsToInt text) })).current_round_active
        = true := hact
    have hel2 :
        ({ p with current_number := Pick.picked (digitsToInt text) } : Player).eliminated
          = false := hel
    unfold dmPickHandler
    simp only [hU2, hG2]
    simp [hact2, hdig, h0, h100, hF2, hel2, hel, Pick.isSet]

/-- A two-player game with an active round, for the C5 witness. -/
def c5Game : Game :=
  { Game.init 12 with
    players := [Player.init 1, Player.init 2]
    current_round_active := true }

/-- Registry holding `c5Game`. -/
def c5Reg : RegState :=
  { active_games := [(12, c5Game)], user_active_game := [(1, 12), (2, 12)] }

/-- Witness for C5: an eligible pick "42" is accepted, an immediate
resubmission is rejected as already-picked, and a rejected submission
(unknown user 3) leaves the matches untouched. -/
theorem C5_pick_validation_witness :
    (dmPickHandler c5Reg 1 "42".toList).2 = PickReply.accepted 42 ∧
    (dmPickHandler (dmPickHandler c5Reg 1 "42".toList).1 1 "42".toList).2 =
      PickReply.alreadyPicked ∧
    (dmPickHandler c5Reg 3 "42".toList).1.active_games = c5Reg.active_games :=
  ⟨(C5_pick_validation c5Reg 1 "42".toList).1.mpr
      ⟨12, c5Game, Player.init 1, rfl, rfl, rfl, by decide, by decide,
        by decide, rfl, rfl, rfl⟩,
   (C5_pick_validation c5Reg 1 "42".toList).2.2.2 12 c5Game (Player.init 1)
      rfl rfl rfl (by decide) (by decide) (by decide) rfl rfl rfl (by decide),
   (C5_pick_validation c5Reg 3 "42".toList).2.2.1
      (fun _ h => PickReply.noConfusion h)⟩

/-- The spec's registry invariant (§3): a user id appears in the
user→group map iff that user is a current entry in the player map of
the match registered for that group. -/
def registryConsistent (r : RegState) : Bool :=
  r.user_active_game.all (fun q =>
    match r.lookupGame q.2 with
    | some g => (g.findPlayer q.1).isSome
    | none => false) &&
  r.active_games.all (fun e =>
    e.2.players.all (fun p => r.lookupUser p.user_id == some e.1))

/-- A join-phase match of group 20 with 8 joined players, as
`add_player` builds it when the configured cap exceeds the literal 7
of `end_join_phase` (`config.py` is absent from the sources; the spec
fixes the default cap at 7). -/
def c9Game : Game :=
  { Game.init 20 with players :=
      [Player.init 1, Player.init 2, Player.init 3, Player.init 4,
       Player.init 5, Player.init 6, Player.init 7, Player.init 8] }

/-- The registry for `c9Game`, with all 8 users bound to group 20. -/
def c9Reg : RegState :=
  { active_games := [(20, c9Game)]
    user_active_game :=
      [(1, 20), (2, 20), (3, 20), (4, 20),
       (5, 20), (6, 20), (7, 20), (8, 20)] }

/-- Claim C9 fails at join-phase expiry with overflow: the registry
invariant holds before `end_join_phase`, but the truncation to 7
players drops player 8 from the player map without popping their
user→group binding, so afterwards user 8 is still bound to group 20
while no longer a player of its match. -/
theorem C9_overflow_truncation_leaks_binding :
    registryConsistent c9Reg = true ∧
    registryConsistent (endJoinPhase c9Reg 20) = false ∧
    (endJoinPhase c9Reg 20).lookupUser 8 = some 20 ∧
    ((endJoinPhase c9Reg 20).lookupGame 20).bind
      (fun g => g.findPlayer 8) = none := by
  refine ⟨?_, ?_, ?_, ?_⟩ <;> decide

/-- Claim C6: once the per-round idempotence guard `round_results_sent`
is set by the first invocation of round resolution, any further
invocation of `process_round_results` for that round returns without
touching the registry, any game or any player, and reports nothing: the
round's score changes and eliminations are applied exactly once. -/
theorem C6_resolution_idempotent (r : RegState) (gid : Int) (g : Game)
    (hg : r.lookupGame gid = some g) (hsent : g.round_results_sent = true) :
    processRoundResults r gid = (r, none) := by
  unfold processRoundResults
  rw [hg]
  simp [hsent]

/-- A two-player game whose idempotence guard is already set. -/
def c6Game : Game :=
  { Game.init 5 with
    players := [Player.init 1, Player.init 2]
    round_results_sent := true }

/-- The registry holding `c6Game`. -/
def c6Reg : RegState :=
  { active_games := [(5, c6Game)], user_active_game := [(1, 5), (2, 5)] }

/-- Witness for C6 at a concrete two-player state with the guard set. -/
theorem C6_resolution_idempotent_witness :
    processRoundResults c6Reg 5 = (c6Reg, none) :=
  C6_resolution_idempotent c6Reg 5 c6Game (by decide) (by decide)

/-! ## The integer pipeline refines the literal rational translation

`processRoundResults` runs the closest-winner comparison and the target
rounding over the integer numerators `|pick*D − S|` with the shared
positive denominator `D = 5 * len` (`S = 4 * Σ`); the three theorems
below discharge that refinement against the definitions translated
literally from the Python float expressions (`closestWinnersQ`,
`pyRound`, `roundTarget`). -/

/-- Python's `round` of the exact fraction: for `D > 0`,
`pyRoundFrac S D = pyRound (S / D)`. -/
theorem pyRoundFrac_matches_rat (S D : Int) (hD : 0 < D) :
    pyRoundFrac S D = pyRound ((S : ℚ) / (D : ℚ)) := by
  have hD0 : (0 : ℚ) < (D : ℚ) := by exact_mod_cast hD
  have hSDr : D * (S / D) + S % D = S := Int.ediv_add_emod S D
  have hr0 : 0 ≤ S % D := Int.emod_nonneg S (by omega)
  have hrD : S % D < D := Int.emod_lt_of_pos S hD
  have hfd : S.fdiv D = S / D := Int.fdiv_eq_ediv S (by omega)
  have hfloor : ⌊(S : ℚ) / (D : ℚ)⌋ = S / D := by
    rw [Int.floor_eq_iff]
    constructor
    · rw [le_div_iff hD0]
      have h : ((S / D : ℤ) : ℚ) * (D : ℚ) ≤ (S : ℚ) := by
        exact_mod_cast (by linarith [hSDr, hr0] : (S / D) * D ≤ S)
      exact h
    · rw [div_lt_iff hD0]
      have h : (S : ℚ) < (((S / D : ℤ) : ℚ) + 1) * (D : ℚ) := by
        exact_mod_cast (by linarith [hSDr, hrD] : S < (S / D + 1) * D)
      exact h
  have hq : (S : ℚ) / (D : ℚ) - ((S / D : ℤ) : ℚ) = ((S % D : ℤ) : ℚ) / (D : ℚ) := by
    have hcast : (D : ℚ) * ((S / D : ℤ) : ℚ) + ((S % D : ℤ) : ℚ) = (S : ℚ) := by
      exact_mod_cast hSDr
    field_simp
    linarith [hcast]
  have hc1 : (((S % D : ℤ) : ℚ) / (D : ℚ) < 1 / 2) ↔ 2 * (S % D) < D := by
    rw [div_lt_div_iff hD0 (by norm_num : (0 : ℚ) < 2)]
    constructor
    · intro h
      have h' : (S % D) * 2 < 1 * D := by exact_mod_cast h
      omega
    · intro h
      have h' : ((S % D : ℤ) : ℚ) * 2 < 1 * (D : ℚ) := by
        exact_mod_cast (by omega : (S % D) * 2 < 1 * D)
      exact h'
  have hc2 : ((1 : ℚ) / 2 < ((S % D : ℤ) : ℚ) / (D : ℚ)) ↔ D < 2 * (S % D) := by
    rw [div_lt_div_iff (by norm_num : (0 : ℚ) < 2) hD0]
    constructor
    · intro h
      have h' : 1 * D < (S % D) * 2 := by exact_mod_cast h
      omega
    · intro h
      have h' : (1 : ℚ) * (D : ℚ) < ((S % D : ℤ) : ℚ) * 2 := by
        exact_mod_cast (by omega : 1 * D < (S % D) * 2)
      exact h'
  unfold pyRoundFrac pyRound
  dsimp only
  rw [hfd, hfloor, hq]
  rw [show S - S / D * D = S % D from by linarith [hSDr]]
  by_cases h1 : 2 * (S % D) < D
  · rw [if_pos h1, if_pos (hc1.mpr h1)]
  · rw [if_neg h1, if_neg (fun hcon => h1 (hc1.mp hcon))]
    by_cases h2 : D < 2 * (S % D)
    · rw [if_pos h2, if_pos (hc2.mpr h2)]
    · rw [if_neg h2, if_neg (fun hcon => h2 (hc2.mp hcon))]

/-- The integer closest-winner computation agrees with the literal
rational translation: for `D > 0`,
`closestWinners g S D = closestWinnersQ g (S / D)`. -/
theorem closestWinners_matches_rat (g : Game) (S D : Int) (hD : 0 < D) :
    closestWinners g S D = closestWinnersQ g ((S : ℚ) / (D : ℚ)) := by
  have hD0 : (0 : ℚ) < (D : ℚ) := by exact_mod_cast hD
  have hDne : (D : ℚ) ≠ 0 := ne_of_gt hD0
  have hinj : ∀ x y : Int, (x : ℚ) / (D : ℚ) = (y : ℚ) / (D : ℚ) → x = y := by
    intro x y hxy
    field_simp at hxy
    exact_mod_cast hxy
  have hdiff : ∀ n : Int,
      |(n : ℚ) - (S : ℚ) / (D : ℚ)| = ((|n * D - S| : ℤ) : ℚ) / (D : ℚ) := by
    intro n
    have h1 : (n : ℚ) - (S : ℚ) / (D : ℚ) = ((n * D - S : ℤ) : ℚ) / (D : ℚ) := by
      push_cast
      field_simp
    rw [h1, abs_div, abs_of_pos hD0, Int.cast_abs]
  have hmono : ∀ a x : Int,
      min ((a : ℚ) / (D : ℚ)) ((x : ℚ) / (D : ℚ)) = ((min a x : ℤ) : ℚ) / (D : ℚ) := by
    intro a x
    rw [min_div_div_right (le_of_lt hD0), Int.cast_min]
  have hfold : ∀ (t : List Int) (a : Int),
      (t.map (fun x : Int => (x : ℚ) / (D : ℚ))).foldl min ((a : ℚ) / (D : ℚ)) =
        ((t.foldl min a : ℤ) : ℚ) / (D : ℚ) := by
    intro t
    induction t with
    | nil => intro a; rfl
    | cons x xs ih =>
        intro a
        rw [List.map_cons, List.foldl_cons, List.foldl_cons, hmono a x, ih (min a x)]
  have hmin : ∀ (l : List Int),
      (l.map (fun x : Int => (x : ℚ) / (D : ℚ))).min? =
        l.min?.map (fun x : Int => (x : ℚ) / (D : ℚ)) := by
    intro l
    cases l with
    | nil => rfl
    | cons a t =>
        show some ((t.map (fun x : Int => (x : ℚ) / (D : ℚ))).foldl min
            ((a : ℚ) / (D : ℚ))) =
          some (((t.foldl min a : ℤ) : ℚ) / (D : ℚ))
        rw [hfold t a]
  have hdiffs :
      g.activePlayers.filterMap (fun p =>
        match p.current_number with
        | Pick.picked n => some (p, |(n : ℚ) - (S : ℚ) / (D : ℚ)|)
        | _ => none) =
      (g.activePlayers.filterMap (fun p =>
        match p.current_number with
        | Pick.picked n => some (p, |n * D - S|)
        | _ => none)).map
        (fun d : Player × Int => (d.1, (d.2 : ℚ) / (D : ℚ))) := by
    rw [List.map_filterMap]
    apply List.filterMap_congr
    intro p _
    cases hc : p.current_number with
    | unset => rfl
    | skipped => rfl
    | picked n =>
        show some (p, |(n : ℚ) - (S : ℚ) / (D : ℚ)|) =
          some (p, ((|n * D - S| : ℤ) : ℚ) / (D : ℚ))
        rw [hdiff n]
  unfold closestWinners closestWinnersQ
  dsimp only
  rw [hdiffs]
  generalize (g.activePlayers.filterMap (fun p =>
      match p.current_number with
      | Pick.picked n => some (p, |n * D - S|)
      | _ => none)) = dI
  rw [show ((dI.map (fun d : Player × Int => (d.1, (d.2 : ℚ) / (D : ℚ)))).map
        Prod.snd) =
      (dI.map Prod.snd).map (fun x : Int => (x : ℚ) / (D : ℚ)) from by
    rw [List.map_map, List.map_map]
    rfl]
  rw [hmin]
  cases hm : (dI.map Prod.snd).min? with
  | none => rfl
  | some m =>
      rw [Option.map_some']
      dsimp only
      have hpred : ∀ x : Int,
          decide ((x : ℚ) / (D : ℚ) = (m : ℚ) / (D : ℚ)) = (x == m) := by
        intro x
        by_cases hx : x = m
        · subst hx
          simp
        · have h1 : ¬((x : ℚ) / (D : ℚ) = (m : ℚ) / (D : ℚ)) :=
            fun hc => hx (hinj x m hc)
          rw [decide_eq_false_iff_not.mpr h1,
            Eq.symm (beq_eq_false_iff_ne.mpr hx)]
      rw [List.filter_map, List.map_map]
      have hflt : dI.filter ((fun d : Player × ℚ =>
          decide (d.2 = (m : ℚ) / (D : ℚ)) && !d.1.eliminated) ∘
          (fun d : Player × Int => (d.1, (d.2 : ℚ) / (D : ℚ)))) =
          dI.filter (fun d : Player × Int => d.2 == m && !d.1.eliminated) := by
        apply List.filter_congr
        intro d _
        show (decide ((d.2 : ℚ) / (D : ℚ) = (m : ℚ) / (D : ℚ)) &&
            !d.1.eliminated) = (d.2 == m && !d.1.eliminated)
        rw [hpred d.2]
      rw [hflt]
      rfl

/-- The shared-denominator pair of `processRoundResults` represents the
round target exactly: for a nonempty pick list,
`roundTarget picks = (4 * Σ) / (5 * len)`. -/
theorem roundTarget_as_frac (picks : List (Int × Int)) (h : picks ≠ []) :
    roundTarget picks =
      ((4 * (picks.map Prod.snd).sum : ℤ) : ℚ) /
        ((5 * ((picks.map Prod.snd).length : ℤ) : ℤ) : ℚ) := by
  unfold roundTarget
  dsimp only
  have hlen0 : picks.length ≠ 0 := fun hc => h (List.length_eq_zero.mp hc)
  have hlenQ : (((picks.map Prod.snd).length : ℕ) : ℚ) ≠ 0 := by
    rw [List.length_map]
    exact_mod_cast hlen0
  rw [show (0.8 : ℚ) = 4 / 5 from by norm_num]
  push_cast
  field_simp
  ring

end MindScale
